import Mathlib

/-!
Verification of the flecs core table store (src/table.c) and query matcher
(src/query.c) against its natural-language specification.

The development is a shallow embedding: C vectors become capacity-carrying
lists, tables become records of columns, and the world state threaded by the
C functions becomes an explicit record.  Machine integers are modelled by
`Nat`/`Int`; allocation failure of `ecs_vector_add`/`ecs_vector_addn` is
driven by an explicit oracle (`ok : Nat -> Bool`) telling which allocations
succeed, since `malloc` is external to the sources.  The vector primitives
themselves (`vector.c`) are not part of the given sources; they are modelled
from the spec's description of vectors (a growable array with a capacity,
whose buffer pointer changes exactly when the capacity must grow).
-/

set_option autoImplicit false

namespace Flecs

/-! ## Vectors (modelled from the spec: `ecs_vector_t` from vector.c, not in
the given sources).  `cap` is the allocated capacity (`vector->size`), `items`
the stored elements (`vector->count` = `items.length`).  A NULL vector is the
vector with capacity 0.  The buffer pointer is observed to change exactly when
the element count would exceed the capacity, which forces a (re)allocation. -/

structure Vec where
  cap : Nat
  items : List Nat
  deriving Repr, DecidableEq, Inhabited

/-- The empty (NULL) vector. -/
def Vec.nil : Vec := { cap := 0, items := [] }

/-- Does appending `n` more elements force a reallocation? -/
def Vec.needsRealloc (v : Vec) (n : Nat) : Bool :=
  v.cap < v.items.length + n

/-- `ecs_vector_add`: append one element.  `allocOk` is the oracle for the
reallocation (when one is needed); the returned `Bool` reports whether the
buffer pointer changed (reallocation happened).  `none` models a NULL return
(allocation failure), which leaves the vector untouched. -/
def vecAdd (v : Vec) (x : Nat) (allocOk : Bool) : Option (Vec × Bool) :=
  if v.needsRealloc 1 then
    if allocOk then
      some ({ cap := max (2 * v.cap) (v.items.length + 1), items := v.items ++ [x] }, true)
    else
      none
  else
    some ({ v with items := v.items ++ [x] }, false)

/-- `ecs_vector_addn`: append a batch of elements. -/
def vecAddn (v : Vec) (xs : List Nat) (allocOk : Bool) : Option (Vec × Bool) :=
  if v.needsRealloc xs.length then
    if allocOk then
      some ({ cap := max (2 * v.cap) (v.items.length + xs.length), items := v.items ++ xs }, true)
    else
      none
  else
    some ({ v with items := v.items ++ xs }, false)

/-- `ecs_vector_remove_index`: the last element overwrites index `i`, then the
count is decremented.  Never reallocates. -/
def vecRemoveIndex (v : Vec) (i : Nat) : Vec :=
  { v with items := (v.items.set i (v.items.getD (v.items.length - 1) 0)).dropLast }

/-- `ecs_vector_remove_last`: drop the final element.  Never reallocates. -/
def vecRemoveLast (v : Vec) : Vec :=
  { v with items := v.items.dropLast }

/-! ## Table columns (src/table.c).  `ecs_table_column_t` is a pair of a data
vector and the element size; column 0 stores entity ids.  The model assumes
the allocation invariant of `new_columns`: a table with `n` type entries has
`n + 1` columns, so the C loop `for (i = 1; i < column_count + 1; i++)`
visits exactly the tail of the column list. -/

structure Column where
  size : Nat
  data : Vec
  deriving Repr, DecidableEq, Inhabited

/-- The world state consumed by table.c: the deferred-mutation flag
(`in_progress`), the reference-resolution flag raised by
`notify_systems_of_realloc` (`should_resolve`), the entity index of the main
stage (an association list, most recent binding first, written by
`ecs_map_set64`) and a log of `ecs_system_activate_table` notifications,
one `(system, activate)` event per notified system. -/
structure EcsWorld where
  in_progress : Bool
  should_resolve : Bool
  entity_index : List (Nat × Nat × Nat)
  activations : List (Nat × Bool)
  deriving Repr, DecidableEq

structure EcsTable where
  type_id : Nat
  type : List Nat
  columns : List Column
  frame_systems : List Nat
  deriving Repr, DecidableEq

/-- `activate_table` with `system == 0`: notify every system registered in
`table->frame_systems` that the table's active state changed. -/
def activateTable (w : EcsWorld) (t : EcsTable) (activate : Bool) : EcsWorld :=
  { w with activations := w.activations ++ t.frame_systems.map (fun s => (s, activate)) }

/-- The data-column loop of `ecs_table_insert`: add one (uninitialised,
modelled as 0) element to every non-zero-size column.  On the first
allocation failure the loop stops, leaving the current and all later columns
untouched (the C returns -1 there).  Returns the updated columns, whether any
visited vector reallocated, and whether a failure occurred.  `i` numbers the
allocation oracle by column index. -/
def insertDataCols (ok : Nat → Bool) : Nat → List Column → List Column × Bool × Bool
  | _, [] => ([], false, false)
  | i, c :: rest =>
    if c.size ≠ 0 then
      match vecAdd c.data 0 (ok i) with
      | none => (c :: rest, false, true)
      | some (v2, r) =>
        let out := insertDataCols ok (i + 1) rest
        ({ c with data := v2 } :: out.1, r || out.2.1, out.2.2)
    else
      let out := insertDataCols ok (i + 1) rest
      (c :: out.1, out.2.1, out.2.2)

/-- `ecs_table_insert` (src/table.c).  `cols` is the column set being written
(the table's own columns or a staged shadow set); `isMain` models the pointer
equality `table->columns == columns`.  Returns the new world, the updated
column set and the C return value (1-based row index, or -1 on allocation
failure). -/
def ecs_table_insert (w : EcsWorld) (t : EcsTable) (cols : List Column)
    (isMain : Bool) (ok : Nat → Bool) (entity : Nat) :
    EcsWorld × List Column × Int :=
  match cols with
  | [] => (w, [], -1)
  | c0 :: rest =>
    match vecAdd c0.data entity (ok 0) with
    | none => (w, c0 :: rest, -1)
    | some (v0, _) =>
      let out := insertDataCols ok 1 rest
      let cols2 := { c0 with data := v0 } :: out.1
      if out.2.2 then
        (w, cols2, -1)
      else
        let index := v0.items.length - 1
        let w1 := if ¬w.in_progress ∧ index = 0 then activateTable w t true else w
        let w2 := if out.2.1 ∧ isMain then { w1 with should_resolve := true } else w1
        (w2, cols2, (index : Int) + 1)

/-- The data-column loop of `ecs_table_grow`: unlike insert, it calls
`ecs_vector_addn` on every column, with no zero-size skip. -/
def growDataCols (ok : Nat → Bool) (count : Nat) :
    Nat → List Column → List Column × Bool × Bool
  | _, [] => ([], false, false)
  | i, c :: rest =>
    match vecAddn c.data (List.replicate count 0) (ok i) with
    | none => (c :: rest, false, true)
    | some (v2, r) =>
      let out := growDataCols ok count (i + 1) rest
      ({ c with data := v2 } :: out.1, r || out.2.1, out.2.2)

/-- `ecs_table_grow` (src/table.c): append `count` rows with entity ids
`first_entity, first_entity + 1, ...`; returns the 1-based index of the first
added row, or -1 on allocation failure. -/
def ecs_table_grow (w : EcsWorld) (t : EcsTable) (cols : List Column)
    (isMain : Bool) (ok : Nat → Bool) (count : Nat) (first_entity : Nat) :
    EcsWorld × List Column × Int :=
  match cols with
  | [] => (w, [], -1)
  | c0 :: rest =>
    match vecAddn c0.data ((List.range count).map (fun i => first_entity + i)) (ok 0) with
    | none => (w, c0 :: rest, -1)
    | some (v0, _) =>
      let out := growDataCols ok count 1 rest
      let cols2 := { c0 with data := v0 } :: out.1
      if out.2.2 then
        (w, cols2, -1)
      else
        let row_count := v0.items.length
        let w1 := if ¬w.in_progress ∧ row_count = count then activateTable w t true else w
        let w2 := if out.2.1 ∧ isMain then { w1 with should_resolve := true } else w1
        (w2, cols2, (row_count : Int) - (count : Int) + 1)

/-- `ecs_table_delete` (src/table.c): swap-with-last removal of the 1-based
row `index` (negative arguments are taken as their absolute value).  The C
asserts that the table is non-empty and `|index| - 1 <= count - 1`; theorems
about this model carry those as hypotheses. -/
def ecs_table_delete (w : EcsWorld) (t : EcsTable) (index : Int) :
    EcsWorld × EcsTable :=
  match t.columns with
  | [] => (w, t)
  | c0 :: rest =>
    let count := c0.data.items.length
    let idx := index.natAbs - 1
    let count1 := count - 1
    if idx ≠ count1 then
      let entities := c0.data.items
      let to_move := entities.getD count1 0
      let entities2 := entities.set idx to_move
      let rest2 := rest.map (fun c =>
        if c.size ≠ 0 then { c with data := vecRemoveIndex c.data idx } else c)
      let w2 := { w with entity_index := (to_move, t.type_id, idx + 1) :: w.entity_index }
      let c0' := { c0 with data := { c0.data with items := entities2.dropLast } }
      let t2 := { t with columns := c0' :: rest2 }
      let w3 := if ¬w.in_progress ∧ count1 = 0 then activateTable w2 t false else w2
      (w3, t2)
    else
      let c0' := { c0 with data := vecRemoveLast c0.data }
      let rest2 := rest.map (fun c =>
        if c.size ≠ 0 then { c with data := vecRemoveLast c.data } else c)
      let t2 := { t with columns := c0' :: rest2 }
      let w3 := if ¬w.in_progress ∧ count1 = 0 then activateTable w t false else w
      (w3, t2)

/-! ## Allocation-success predicates for insert, used to state the
out-of-memory behaviour: an insert returns the sentinel -1 exactly when some
allocation it needs is refused by the oracle. -/

/-- All allocations needed by the data-column loop of insert succeed. -/
def insertColsOk (ok : Nat → Bool) : Nat → List Column → Bool
  | _, [] => true
  | i, c :: rest =>
    if c.size ≠ 0 then
      (!(c.data.needsRealloc 1) || ok i) && insertColsOk ok (i + 1) rest
    else
      insertColsOk ok (i + 1) rest

/-- All allocations needed by `ecs_table_insert` succeed. -/
def insertAllocsOk (cols : List Column) (ok : Nat → Bool) : Bool :=
  match cols with
  | [] => true
  | c0 :: rest => (!(c0.data.needsRealloc 1) || ok 0) && insertColsOk ok 1 rest

theorem vecAdd_eq_none_iff (v : Vec) (x : Nat) (b : Bool) :
    vecAdd v x b = none ↔ (v.needsRealloc 1 = true ∧ b = false) := by
  unfold vecAdd
  rcases hb : b <;> rcases hr : v.needsRealloc 1 <;> simp [hb, hr]

theorem vecAdd_some (v : Vec) (x : Nat) (b : Bool) (v2 : Vec) (r : Bool)
    (h : vecAdd v x b = some (v2, r)) :
    v2.items = v.items ++ [x] ∧ r = v.needsRealloc 1 := by
  unfold vecAdd at h
  rcases hr : v.needsRealloc 1 <;> rcases hb : b <;>
    simp [hr, hb] at h <;> simp [← h, hr]

/-- A successful `vecAdd` means the needed allocation (if any) was allowed. -/
theorem vecAdd_isSome_cond (v : Vec) (x : Nat) (b : Bool) (p : Vec × Bool)
    (h : vecAdd v x b = some p) : (!(v.needsRealloc 1) || b) = true := by
  unfold vecAdd at h
  rcases hr : v.needsRealloc 1 <;> rcases hb : b <;> simp [hr, hb] at h ⊢

/-- The failure flag of the insert data-column loop is the negation of
`insertColsOk`. -/
theorem insertDataCols_failed (ok : Nat → Bool) :
    ∀ (i : Nat) (cs : List Column),
      (insertDataCols ok i cs).2.2 = !(insertColsOk ok i cs)
  | _, [] => rfl
  | i, c :: rest => by
    have ih := insertDataCols_failed ok (i + 1) rest
    by_cases hs : c.size = 0
    · simp [insertDataCols, insertColsOk, hs, ih]
    · rcases h : vecAdd c.data 0 (ok i) with _ | ⟨v2, r⟩
      · have h2 := (vecAdd_eq_none_iff c.data 0 (ok i)).mp h
        simp only [insertDataCols, insertColsOk, hs, h]
        simp [hs, h2.1, h2.2]
      · have hc := vecAdd_isSome_cond c.data 0 (ok i) (v2, r) h
        simp only [insertDataCols, insertColsOk, hs, h]
        simp only [Bool.or_eq_true, Bool.not_eq_true] at hc
        rcases hc with hc | hc <;> simp [hs, hc, ih]

/-- When every allocation succeeds, the insert data-column loop appends one
element (modelled as 0) to every non-zero-size column and leaves zero-size
columns untouched. -/
theorem insertDataCols_success (ok : Nat → Bool) :
    ∀ (i : Nat) (cs : List Column), insertColsOk ok i cs = true →
      (insertDataCols ok i cs).1.length = cs.length ∧
      ∀ j, j < cs.length →
        ((insertDataCols ok i cs).1.getD j default).size = (cs.getD j default).size ∧
        ((insertDataCols ok i cs).1.getD j default).data.items =
          (if (cs.getD j default).size ≠ 0 then (cs.getD j default).data.items ++ [0]
           else (cs.getD j default).data.items)
  | _, [], _ => by simp [insertDataCols]
  | i, c :: rest, hok => by
    by_cases hs : c.size = 0
    · have hok2 : insertColsOk ok (i + 1) rest = true := by
        simpa [insertColsOk, hs] using hok
      have ih := insertDataCols_success ok (i + 1) rest hok2
      refine ⟨by simp [insertDataCols, hs, ih.1], ?_⟩
      intro j hj
      rcases j with _ | j
      · simp [insertDataCols, hs]
      · have h2 := ih.2 j (by simpa using hj)
        simpa [insertDataCols, hs] using h2
    · have hok' : ((!(c.data.needsRealloc 1) || ok i)
          && insertColsOk ok (i + 1) rest) = true := by
        simpa [insertColsOk, hs] using hok
      rw [Bool.and_eq_true] at hok'
      have hok2 := hok'.2
      rcases h : vecAdd c.data 0 (ok i) with _ | ⟨v2, r⟩
      · rw [vecAdd_eq_none_iff] at h
        rw [h.1, h.2] at hok'
        simp at hok'
      · have hv := vecAdd_some c.data 0 (ok i) v2 r h
        have ih := insertDataCols_success ok (i + 1) rest hok2
        refine ⟨by simp [insertDataCols, hs, h, ih.1], ?_⟩
        intro j hj
        rcases j with _ | j
        · simp [insertDataCols, hs, h, hv.1]
        · have h2 := ih.2 j (by simpa using hj)
          simpa [insertDataCols, hs, h] using h2

/-- The full behaviour of a table insert, as stated by the spec: the sentinel
-1 is returned exactly on allocation failure; on success, the entity is
appended to column 0, one element is appended to every non-zero-size data
column, zero-size columns and all previously stored rows are undisturbed, the
returned index is the 1-based row of the new entity, and when the table was
empty and the world is not deferred every registered system is notified of
the activation. -/
def InsertSpec (w : EcsWorld) (t : EcsTable) (cols : List Column)
    (isMain : Bool) (ok : Nat → Bool) (e : Nat) : Prop :=
  ((ecs_table_insert w t cols isMain ok e).2.2 = -1 ↔ insertAllocsOk cols ok = false) ∧
  ((ecs_table_insert w t cols isMain ok e).2.2 ≠ -1 →
    (ecs_table_insert w t cols isMain ok e).2.2 =
      ((cols.headD default).data.items.length : Int) + 1 ∧
    ((ecs_table_insert w t cols isMain ok e).2.1.headD default).data.items =
      (cols.headD default).data.items ++ [e] ∧
    ((ecs_table_insert w t cols isMain ok e).2.1.headD default).data.items.getD
      (cols.headD default).data.items.length 0 = e ∧
    (ecs_table_insert w t cols isMain ok e).2.1.length = cols.length ∧
    (∀ j, j < cols.length → 1 ≤ j →
      ((ecs_table_insert w t cols isMain ok e).2.1.getD j default).data.items =
        (if (cols.getD j default).size ≠ 0 then (cols.getD j default).data.items ++ [0]
         else (cols.getD j default).data.items)) ∧
    (ecs_table_insert w t cols isMain ok e).1.activations =
      (if ¬w.in_progress ∧ (cols.headD default).data.items.length = 0 then
        w.activations ++ t.frame_systems.map (fun s => (s, true))
       else w.activations))

/-- C1: `ecs_table_insert` appends the entity to column 0 and one
uninitialised element to every non-zero-size data column, leaves previously
stored rows undisturbed, returns the 1-based row index of the new entity
(which stores the entity), notifies registered systems when a table becomes
non-empty outside a deferred phase, and returns the sentinel -1 exactly on
allocation failure. -/
theorem ecs_table_insert_correct (w : EcsWorld) (t : EcsTable)
    (cols : List Column) (isMain : Bool) (ok : Nat → Bool) (e : Nat)
    (hne : cols ≠ []) : InsertSpec w t cols isMain ok e := by
  match cols with
  | [] => exact absurd rfl hne
  | c0 :: rest =>
    unfold InsertSpec
    rcases h0 : vecAdd c0.data e (ok 0) with _ | ⟨v0, r0⟩
    · have h2 := (vecAdd_eq_none_iff c0.data e (ok 0)).mp h0
      refine ⟨?_, ?_⟩
      · simp only [ecs_table_insert, h0]
        simp [insertAllocsOk, h2.1, h2.2]
      · intro hr
        exact absurd (by simp only [ecs_table_insert, h0]) hr
    · have hfl := insertDataCols_failed ok 1 rest
      rcases hco : insertColsOk ok 1 rest with _ | _
      · have hf : (insertDataCols ok 1 rest).2.2 = true := by
          rw [hfl, hco]; rfl
        refine ⟨?_, ?_⟩
        · simp [ecs_table_insert, h0, hf, insertAllocsOk, hco]
        · intro hr
          exact absurd (by simp [ecs_table_insert, h0, hf]) hr
      · have hf : (insertDataCols ok 1 rest).2.2 = false := by
          rw [hfl, hco]; rfl
        have hc0 := vecAdd_isSome_cond c0.data e (ok 0) (v0, r0) h0
        have hv0 := vecAdd_some c0.data e (ok 0) v0 r0 h0
        have hlen : v0.items.length = c0.data.items.length + 1 := by
          rw [hv0.1]; simp
        have hsuc := insertDataCols_success ok 1 rest hco
        have heq : ecs_table_insert w t (c0 :: rest) isMain ok e =
            ((if (insertDataCols ok 1 rest).2.1 ∧ isMain then
                { (if ¬w.in_progress ∧ c0.data.items.length = 0 then
                    activateTable w t true else w) with should_resolve := true }
              else
                (if ¬w.in_progress ∧ c0.data.items.length = 0 then
                  activateTable w t true else w)),
             { c0 with data := v0 } :: (insertDataCols ok 1 rest).1,
             (c0.data.items.length : Int) + 1) := by
          simp [ecs_table_insert, h0, hf, hlen]
        refine ⟨?_, ?_⟩
        · rw [heq]
          simp only [insertAllocsOk]
          constructor
          · intro hx
            simp only [] at hx
            omega
          · intro hx
            rw [hc0, hco] at hx
            simp at hx
        · intro _
          rw [heq]
          refine ⟨by simp, by simp [hv0.1], ?_, ?_, ?_, ?_⟩
          · simp [hv0.1]
          · simp [hsuc.1]
          · intro j hj h1j
            rcases j with _ | j
            · omega
            · have h2 := hsuc.2 j (by simpa using hj)
              simpa using h2.2
          · simp only [List.headD_cons]
            by_cases hA : (insertDataCols ok 1 rest).2.1 = true ∧ isMain = true
            all_goals by_cases hB : ¬w.in_progress = true ∧ c0.data.items.length = 0
            all_goals simp [hA, hB, activateTable]
            all_goals split <;> rfl

/-- Witness for C1 at a concrete input: a one-component table receiving
entity 7 with all allocations permitted. -/
theorem ecs_table_insert_correct_witness :
    (([{ size := 8, data := Vec.nil }, { size := 4, data := Vec.nil }] : List Column) ≠ []) ∧
    InsertSpec
      { in_progress := false, should_resolve := false, entity_index := [], activations := [] }
      { type_id := 1, type := [9],
        columns := [{ size := 8, data := Vec.nil }, { size := 4, data := Vec.nil }],
        frame_systems := [3] }
      [{ size := 8, data := Vec.nil }, { size := 4, data := Vec.nil }]
      true (fun _ => true) 7 :=
  ⟨by decide,
   ecs_table_insert_correct
     { in_progress := false, should_resolve := false, entity_index := [], activations := [] }
     { type_id := 1, type := [9],
       columns := [{ size := 8, data := Vec.nil }, { size := 4, data := Vec.nil }],
       frame_systems := [3] }
     [{ size := 8, data := Vec.nil }, { size := 4, data := Vec.nil }]
     true (fun _ => true) 7 (by decide)⟩

/-- Concrete world for the C2 counterexample. -/
def c2World : EcsWorld :=
  { in_progress := false, should_resolve := false, entity_index := [], activations := [] }

/-- Concrete two-entity table for the C2 counterexample. -/
def c2Table : EcsTable :=
  { type_id := 5, type := [],
    columns := [{ size := 8, data := { cap := 2, items := [1, 2] } }],
    frame_systems := [] }

/-- Counterexample to C2 as stated: deleting the (1-based) row 2 of a
two-entity table removes the last row without any swap.  The table is not
empty afterwards, the entity previously stored last (entity 2) does not
occupy row 2 (that row is gone), and the entity index receives no update for
it — so the claimed disjunction "empty, or the previously-last entity now
occupies row r and the index reflects the swap" fails. -/
theorem ecs_table_delete_claim_counterexample :
    (((ecs_table_delete c2World c2Table 2).2.columns.headD default).data.items.length = 1) ∧
    ¬((((ecs_table_delete c2World c2Table 2).2.columns.headD default).data.items.length = 0) ∨
      ((((ecs_table_delete c2World c2Table 2).2.columns.headD default).data.items.getD 1 0 = 2) ∧
       List.lookup 2 (ecs_table_delete c2World c2Table 2).1.entity_index = some (5, 2))) := by
  decide

theorem length_set_dropLast (l : List Nat) (i x : Nat) :
    ((l.set i x).dropLast).length = l.length - 1 := by
  simp

theorem getD_set_dropLast_self (l : List Nat) (i x : Nat) (h : i < l.length - 1) :
    ((l.set i x).dropLast).getD i 0 = x := by
  have h1 : i < ((l.set i x).dropLast).length := by
    rw [length_set_dropLast]; omega
  rw [List.getD_eq_getElem _ _ h1, List.getElem_dropLast, List.getElem_set_self]

theorem getD_set_dropLast_ne (l : List Nat) (i p x : Nat) (hp : p < l.length - 1)
    (hne : i ≠ p) : ((l.set i x).dropLast).getD p 0 = l.getD p 0 := by
  have h1 : p < ((l.set i x).dropLast).length := by
    rw [length_set_dropLast]; omega
  rw [List.getD_eq_getElem _ _ h1, List.getElem_dropLast, List.getElem_set_ne hne,
    List.getD_eq_getElem l 0 (by omega)]

theorem getD_map_col (f : Column → Column) (l : List Column) (j : Nat)
    (h : j < l.length) : (l.map f).getD j default = f (l.getD j default) := by
  rw [List.getD_eq_getElem _ _ (by simpa using h), List.getD_eq_getElem _ _ h,
    List.getElem_map]

/-- The amended C2 statement about a delete, as a predicate over the world,
the table (with columns `c0 :: rest`) and the 1-based signed row index. -/
def DeleteSpec (w : EcsWorld) (t : EcsTable) (index : Int)
    (c0 : Column) (rest : List Column) : Prop :=
    ((ecs_table_delete w t index).2.columns.headD default).data.items.length
        = c0.data.items.length - 1 ∧
    (index.natAbs = c0.data.items.length →
      ((ecs_table_delete w t index).2.columns.headD default).data.items
          = c0.data.items.dropLast ∧
      (ecs_table_delete w t index).1.entity_index = w.entity_index ∧
      (∀ j, j < rest.length →
        ((ecs_table_delete w t index).2.columns.getD (j + 1) default).data.items
          = (if (rest.getD j default).size ≠ 0 then (rest.getD j default).data.items.dropLast
             else (rest.getD j default).data.items))) ∧
    (index.natAbs ≠ c0.data.items.length →
      (((ecs_table_delete w t index).2.columns.headD default).data.items.getD
          (index.natAbs - 1) 0 = c0.data.items.getD (c0.data.items.length - 1) 0) ∧
      (∀ p, p < c0.data.items.length - 1 → p ≠ index.natAbs - 1 →
        ((ecs_table_delete w t index).2.columns.headD default).data.items.getD p 0
          = c0.data.items.getD p 0) ∧
      List.lookup (c0.data.items.getD (c0.data.items.length - 1) 0)
          (ecs_table_delete w t index).1.entity_index
        = some (t.type_id, index.natAbs) ∧
      (∀ j, j < rest.length → (rest.getD j default).size ≠ 0 →
        ((ecs_table_delete w t index).2.columns.getD (j + 1) default).data.items.length
            = c0.data.items.length - 1 ∧
        ((ecs_table_delete w t index).2.columns.getD (j + 1) default).data.items.getD
            (index.natAbs - 1) 0
          = (rest.getD j default).data.items.getD (c0.data.items.length - 1) 0) ∧
      (∀ j, j < rest.length → (rest.getD j default).size = 0 →
        ((ecs_table_delete w t index).2.columns.getD (j + 1) default)
          = rest.getD j default)) ∧
    ((ecs_table_delete w t index).1.activations =
      (if ¬w.in_progress ∧ c0.data.items.length - 1 = 0 then
        w.activations ++ t.frame_systems.map (fun s => (s, false))
       else w.activations))

/-- C2 (amended): `ecs_table_delete` on a valid 1-based row `|index|` shrinks
column 0 by one row.  When `|index|` is the last row the row is simply
truncated (no swap, no entity-index update; in particular this covers the
table becoming empty).  Otherwise the entity previously stored last is moved
into row `|index|` of column 0 and of every non-zero-size data column, all
other rows are undisturbed, and the entity index maps the moved entity to
row `|index|`.  Zero-size columns are untouched, and when the table becomes
empty outside a deferred phase the registered systems receive a deactivation
notification. -/
theorem ecs_table_delete_correct (w : EcsWorld) (t : EcsTable) (index : Int)
    (c0 : Column) (rest : List Column)
    (hcols : t.columns = c0 :: rest)
    (hpos : 1 ≤ index.natAbs) (hle : index.natAbs ≤ c0.data.items.length)
    (hwf : ∀ j, j < rest.length → (rest.getD j default).size ≠ 0 →
      (rest.getD j default).data.items.length = c0.data.items.length) :
    DeleteSpec w t index c0 rest := by
  unfold DeleteSpec
  by_cases hbr : index.natAbs - 1 = c0.data.items.length - 1
  · have hnat : index.natAbs = c0.data.items.length := by omega
    have heq : ecs_table_delete w t index =
        ((if ¬w.in_progress ∧ c0.data.items.length - 1 = 0 then
            activateTable w t false else w),
         { t with columns := { c0 with data := vecRemoveLast c0.data } ::
             rest.map (fun c =>
               if c.size ≠ 0 then { c with data := vecRemoveLast c.data } else c) }) := by
      simp only [ecs_table_delete, hcols]
      rw [if_neg (by omega : ¬(index.natAbs - 1 ≠ c0.data.items.length - 1))]
    refine ⟨?_, ?_, ?_, ?_⟩
    · rw [heq]
      simp [vecRemoveLast]
    · intro _
      refine ⟨by rw [heq]; rfl, ?_, ?_⟩
      · rw [heq]
        split <;> rfl
      · intro j hj
        rw [heq]
        simp only [List.getD_cons_succ]
        simp only [getD_map_col _ _ _ hj]
        by_cases hz : (rest.getD j default).size ≠ 0
        · rw [if_pos hz, if_pos hz]
          rfl
        · rw [if_neg hz, if_neg hz]
    · intro hx
      exact absurd hnat hx
    · rw [heq]
      by_cases hc : ¬w.in_progress = true ∧ c0.data.items.length - 1 = 0
      · rw [if_pos hc, if_pos hc]
        rfl
      · rw [if_neg hc, if_neg hc]
  · have hnat : index.natAbs ≠ c0.data.items.length := by omega
    have hidx : index.natAbs - 1 < c0.data.items.length - 1 := by omega
    have heq : ecs_table_delete w t index =
        ((if ¬w.in_progress ∧ c0.data.items.length - 1 = 0 then
            activateTable
              { w with entity_index :=
                  (c0.data.items.getD (c0.data.items.length - 1) 0, t.type_id,
                    index.natAbs - 1 + 1) :: w.entity_index } t false
          else
            { w with entity_index :=
                (c0.data.items.getD (c0.data.items.length - 1) 0, t.type_id,
                  index.natAbs - 1 + 1) :: w.entity_index }),
         { t with columns :=
             { c0 with data := { c0.data with items :=
                 ((c0.data.items.set (index.natAbs - 1)
                    (c0.data.items.getD (c0.data.items.length - 1) 0)).dropLast) } } ::
             rest.map (fun c =>
               if c.size ≠ 0 then
                 { c with data := vecRemoveIndex c.data (index.natAbs - 1) } else c) }) := by
      simp only [ecs_table_delete, hcols]
      rw [if_pos (by omega : index.natAbs - 1 ≠ c0.data.items.length - 1)]
    refine ⟨?_, ?_, ?_, ?_⟩
    · rw [heq]
      simp only [List.headD_cons]
      exact length_set_dropLast _ _ _
    · intro hx
      exact absurd hx hnat
    · intro _
      refine ⟨?_, ?_, ?_, ?_, ?_⟩
      · rw [heq]
        simp only [List.headD_cons]
        exact getD_set_dropLast_self _ _ _ hidx
      · intro p hp hpne
        rw [heq]
        simp only [List.headD_cons]
        exact getD_set_dropLast_ne _ _ _ _ hp (fun hx => hpne hx.symm)
      · rw [heq]
        have hrow : index.natAbs - 1 + 1 = index.natAbs := by omega
        by_cases hc : ¬w.in_progress = true ∧ c0.data.items.length - 1 = 0
        · rw [if_pos hc]
          simp [activateTable, List.lookup, hrow]
        · rw [if_neg hc]
          simp [List.lookup, hrow]
      · intro j hj hz
        rw [heq]
        simp only [List.getD_cons_succ]
        rw [getD_map_col _ _ _ hj]
        have hlenj := hwf j hj hz
        rw [if_pos hz]
        constructor
        · simp only [vecRemoveIndex]
          rw [length_set_dropLast, hlenj]
        · simp only [vecRemoveIndex]
          rw [hlenj]
          exact getD_set_dropLast_self _ _ _ (by omega)
      · intro j hj hz
        rw [heq]
        simp only [List.getD_cons_succ]
        simp only [getD_map_col _ _ _ hj]
        rw [if_neg (by simpa using hz)]
    · rw [heq]
      by_cases hc : ¬w.in_progress = true ∧ c0.data.items.length - 1 = 0
      · rw [if_pos hc, if_pos hc]
        rfl
      · rw [if_neg hc, if_neg hc]

/-- Concrete columns for the C2 witness: a three-entity table with one
4-byte data column. -/
def c2wC0 : Column := { size := 8, data := { cap := 3, items := [1, 2, 3] } }

def c2wC1 : Column := { size := 4, data := { cap := 3, items := [10, 20, 30] } }

def c2wTable : EcsTable :=
  { type_id := 5, type := [9], columns := [c2wC0, c2wC1], frame_systems := [] }

/-- Witness for the amended C2 at a concrete input: deleting row 2 of a
three-entity table (a genuine swap-with-last). -/
theorem ecs_table_delete_correct_witness :
    (c2wTable.columns = c2wC0 :: [c2wC1] ∧
     1 ≤ (2 : Int).natAbs ∧
     (2 : Int).natAbs ≤ c2wC0.data.items.length ∧
     (∀ j, j < [c2wC1].length → ([c2wC1].getD j default).size ≠ 0 →
       ([c2wC1].getD j default).data.items.length = c2wC0.data.items.length)) ∧
    DeleteSpec c2World c2wTable 2 c2wC0 [c2wC1] :=
  ⟨⟨by decide, by decide, by decide, by decide⟩,
   ecs_table_delete_correct c2World c2wTable 2 c2wC0 [c2wC1]
     (by decide) (by decide) (by decide) (by decide)⟩

/-! ## Grow allocation predicates and loop lemmas, mirroring the insert
ones. -/

/-- All allocations needed by the data-column loop of grow succeed. -/
def growColsOk (ok : Nat → Bool) (count : Nat) : Nat → List Column → Bool
  | _, [] => true
  | i, c :: rest =>
    (!(c.data.needsRealloc count) || ok i) && growColsOk ok count (i + 1) rest

theorem vecAddn_eq_none_iff (v : Vec) (xs : List Nat) (b : Bool) :
    vecAddn v xs b = none ↔ (v.needsRealloc xs.length = true ∧ b = false) := by
  unfold vecAddn
  rcases hb : b <;> rcases hr : v.needsRealloc xs.length <;> simp [hb, hr]

theorem vecAddn_some (v : Vec) (xs : List Nat) (b : Bool) (v2 : Vec) (r : Bool)
    (h : vecAddn v xs b = some (v2, r)) :
    v2.items = v.items ++ xs ∧ r = v.needsRealloc xs.length := by
  unfold vecAddn at h
  rcases hr : v.needsRealloc xs.length <;> rcases hb : b <;>
    simp [hr, hb] at h <;> simp [← h, hr]

theorem vecAddn_isSome_cond (v : Vec) (xs : List Nat) (b : Bool) (p : Vec × Bool)
    (h : vecAddn v xs b = some p) : (!(v.needsRealloc xs.length) || b) = true := by
  unfold vecAddn at h
  rcases hr : v.needsRealloc xs.length <;> rcases hb : b <;> simp [hr, hb] at h ⊢

/-- Failure flag of the grow data-column loop. -/
theorem growDataCols_failed (ok : Nat → Bool) (count : Nat) :
    ∀ (i : Nat) (cs : List Column),
      (growDataCols ok count i cs).2.2 = !(growColsOk ok count i cs)
  | _, [] => rfl
  | i, c :: rest => by
    have ih := growDataCols_failed ok count (i + 1) rest
    rcases h : vecAddn c.data (List.replicate count 0) (ok i) with _ | ⟨v2, r⟩
    · have h2 := (vecAddn_eq_none_iff c.data (List.replicate count 0) (ok i)).mp h
      simp only [growDataCols, growColsOk, h]
      simp only [List.length_replicate] at h2
      simp [h2.1, h2.2]
    · have hc := vecAddn_isSome_cond c.data (List.replicate count 0) (ok i) (v2, r) h
      simp only [growDataCols, growColsOk, h]
      simp only [List.length_replicate] at hc
      simp only [Bool.or_eq_true, Bool.not_eq_true] at hc
      rcases hc with hc | hc <;> simp [hc, ih]

/-- Success behaviour of the grow data-column loop: every column (zero-size
ones included) receives `count` appended placeholder elements. -/
theorem growDataCols_success (ok : Nat → Bool) (count : Nat) :
    ∀ (i : Nat) (cs : List Column), growColsOk ok count i cs = true →
      (growDataCols ok count i cs).1.length = cs.length ∧
      ∀ j, j < cs.length →
        ((growDataCols ok count i cs).1.getD j default).size = (cs.getD j default).size ∧
        ((growDataCols ok count i cs).1.getD j default).data.items =
          (cs.getD j default).data.items ++ List.replicate count 0
  | _, [], _ => by simp [growDataCols]
  | i, c :: rest, hok => by
    have hok' : ((!(c.data.needsRealloc count) || ok i)
        && growColsOk ok count (i + 1) rest) = true := hok
    rw [Bool.and_eq_true] at hok'
    rcases h : vecAddn c.data (List.replicate count 0) (ok i) with _ | ⟨v2, r⟩
    · have h2 := (vecAddn_eq_none_iff c.data (List.replicate count 0) (ok i)).mp h
      simp only [List.length_replicate] at h2
      rw [h2.1, h2.2] at hok'
      simp at hok'
    · have hv := vecAddn_some c.data (List.replicate count 0) (ok i) v2 r h
      have ih := growDataCols_success ok count (i + 1) rest hok'.2
      refine ⟨by simp [growDataCols, h, ih.1], ?_⟩
      intro j hj
      rcases j with _ | j
      · simp [growDataCols, h, hv.1]
      · have h2 := ih.2 j (by simpa using hj)
        simp only [growDataCols, h]
        simpa using h2

/-- Reallocation flag of the insert data-column loop on success: set exactly
when some non-zero-size column had to grow its buffer. -/
theorem insertDataCols_reallocd (ok : Nat → Bool) :
    ∀ (i : Nat) (cs : List Column), insertColsOk ok i cs = true →
      ((insertDataCols ok i cs).2.1 = true ↔
        ∃ j, j < cs.length ∧ (cs.getD j default).size ≠ 0 ∧
          (cs.getD j default).data.needsRealloc 1 = true)
  | _, [], _ => by simp [insertDataCols]
  | i, c :: rest, hok => by
    by_cases hs : c.size = 0
    · have hok2 : insertColsOk ok (i + 1) rest = true := by
        simpa [insertColsOk, hs] using hok
      have ih := insertDataCols_reallocd ok (i + 1) rest hok2
      rw [show (insertDataCols ok i (c :: rest)) =
          (c :: (insertDataCols ok (i + 1) rest).1,
           (insertDataCols ok (i + 1) rest).2.1,
           (insertDataCols ok (i + 1) rest).2.2) from by
        simp [insertDataCols, hs]]
      constructor
      · intro hr
        rcases ih.mp hr with ⟨j, hj, hsz, hre⟩
        exact ⟨j + 1, by simpa using hj, by simpa using hsz, by simpa using hre⟩
      · intro hex
        rcases hex with ⟨j, hj, hsz, hre⟩
        rcases j with _ | j
        · simp at hsz
          exact absurd hs hsz
        · exact ih.mpr ⟨j, by simpa using hj, by simpa using hsz, by simpa using hre⟩
    · have hok' : ((!(c.data.needsRealloc 1) || ok i)
          && insertColsOk ok (i + 1) rest) = true := by
        simpa [insertColsOk, hs] using hok
      rw [Bool.and_eq_true] at hok'
      rcases h : vecAdd c.data 0 (ok i) with _ | ⟨v2, r⟩
      · have h2 := (vecAdd_eq_none_iff c.data 0 (ok i)).mp h
        rw [h2.1, h2.2] at hok'
        simp at hok'
      · have hv := vecAdd_some c.data 0 (ok i) v2 r h
        have ih := insertDataCols_reallocd ok (i + 1) rest hok'.2
        rw [show (insertDataCols ok i (c :: rest)) =
            ({ c with data := v2 } :: (insertDataCols ok (i + 1) rest).1,
             r || (insertDataCols ok (i + 1) rest).2.1,
             (insertDataCols ok (i + 1) rest).2.2) from by
          simp [insertDataCols, hs, h]]
        constructor
        · intro hr
          simp only [Bool.or_eq_true] at hr
          rcases hr with hr | hr
          · exact ⟨0, by simp, by simpa using hs,
              by simp only [List.getD_cons_zero]; rw [← hv.2]; exact hr⟩
          · rcases ih.mp hr with ⟨j, hj, hsz, hre⟩
            exact ⟨j + 1, by simpa using hj, by simpa using hsz, by simpa using hre⟩
        · intro hex
          rcases hex with ⟨j, hj, hsz, hre⟩
          simp only [Bool.or_eq_true]
          rcases j with _ | j
          · left
            rw [hv.2]
            simpa using hre
          · right
            exact ih.mpr ⟨j, by simpa using hj, by simpa using hsz, by simpa using hre⟩

/-- Reallocation flag of the grow data-column loop on success. -/
theorem growDataCols_reallocd (ok : Nat → Bool) (count : Nat) :
    ∀ (i : Nat) (cs : List Column), growColsOk ok count i cs = true →
      ((growDataCols ok count i cs).2.1 = true ↔
        ∃ j, j < cs.length ∧ (cs.getD j default).data.needsRealloc count = true)
  | _, [], _ => by simp [growDataCols]
  | i, c :: rest, hok => by
    have hok' : ((!(c.data.needsRealloc count) || ok i)
        && growColsOk ok count (i + 1) rest) = true := hok
    rw [Bool.and_eq_true] at hok'
    rcases h : vecAddn c.data (List.replicate count 0) (ok i) with _ | ⟨v2, r⟩
    · have h2 := (vecAddn_eq_none_iff c.data (List.replicate count 0) (ok i)).mp h
      simp only [List.length_replicate] at h2
      rw [h2.1, h2.2] at hok'
      simp at hok'
    · have hv := vecAddn_some c.data (List.replicate count 0) (ok i) v2 r h
      simp only [List.length_replicate] at hv
      have ih := growDataCols_reallocd ok count (i + 1) rest hok'.2
      rw [show (growDataCols ok count i (c :: rest)) =
          ({ c with data := v2 } :: (growDataCols ok count (i + 1) rest).1,
           r || (growDataCols ok count (i + 1) rest).2.1,
           (growDataCols ok count (i + 1) rest).2.2) from by
        simp [growDataCols, h]]
      constructor
      · intro hr
        simp only [Bool.or_eq_true] at hr
        rcases hr with hr | hr
        · exact ⟨0, by simp,
            by simp only [List.getD_cons_zero]; rw [← hv.2]; exact hr⟩
        · rcases ih.mp hr with ⟨j, hj, hre⟩
          exact ⟨j + 1, by simpa using hj, by simpa using hre⟩
      · intro hex
        rcases hex with ⟨j, hj, hre⟩
        simp only [Bool.or_eq_true]
        rcases j with _ | j
        · left
          rw [hv.2]
          simpa using hre
        · right
          exact ih.mpr ⟨j, by simpa using hj, by simpa using hre⟩

/-- The C3 column-length invariant: every non-zero-size data column stores
exactly as many elements as the entity column (column 0). -/
def ColumnsBalanced (cols : List Column) : Prop :=
  ∀ j, j < cols.length → 1 ≤ j → (cols.getD j default).size ≠ 0 →
    (cols.getD j default).data.items.length = (cols.headD default).data.items.length

/-- A quiescent world used by concrete instances. -/
def w0 : EcsWorld :=
  { in_progress := false, should_resolve := false, entity_index := [], activations := [] }

/-- Columns used by the C3 counterexample: the entity column has spare
capacity, the 4-byte data column is full. -/
def c3Cols : List Column :=
  [{ size := 8, data := { cap := 2, items := [5] } },
   { size := 4, data := { cap := 1, items := [9] } }]

def c3Table : EcsTable :=
  { type_id := 2, type := [7], columns := c3Cols, frame_systems := [] }

/-- Allocation oracle for the C3 counterexample: only the first allocation
may succeed. -/
def c3Ok : Nat → Bool := fun i => decide (i = 0)

instance (cols : List Column) : Decidable (ColumnsBalanced cols) := by
  unfold ColumnsBalanced
  infer_instance

/-- Counterexample to C3 as stated: when the data-column allocation fails
after column 0 already grew, the insert returns the -1 sentinel but leaves
the columns with unequal lengths, so the balance invariant does not hold
"including operations that return the out-of-memory sentinel". -/
theorem ecs_table_insert_oom_counterexample :
    ColumnsBalanced c3Cols ∧
    (ecs_table_insert w0 c3Table c3Cols true c3Ok 6).2.2 = -1 ∧
    ¬ ColumnsBalanced (ecs_table_insert w0 c3Table c3Cols true c3Ok 6).2.1 := by
  decide

/-- Column sizes and data lengths after a delete, without any validity
assumption: column 0 and every non-zero-size data column lose one element,
zero-size columns are untouched. -/
theorem ecs_table_delete_lengths (w : EcsWorld) (t : EcsTable) (index : Int)
    (c0 : Column) (rest : List Column) (hcols : t.columns = c0 :: rest) :
    ((ecs_table_delete w t index).2.columns.headD default).data.items.length
        = c0.data.items.length - 1 ∧
    (ecs_table_delete w t index).2.columns.length = rest.length + 1 ∧
    ∀ j, j < rest.length →
      ((ecs_table_delete w t index).2.columns.getD (j + 1) default).size
          = (rest.getD j default).size ∧
      ((ecs_table_delete w t index).2.columns.getD (j + 1) default).data.items.length
        = (if (rest.getD j default).size ≠ 0
           then (rest.getD j default).data.items.length - 1
           else (rest.getD j default).data.items.length) := by
  by_cases hbr : index.natAbs - 1 ≠ c0.data.items.length - 1
  · have heq : ecs_table_delete w t index =
        ((if ¬w.in_progress ∧ c0.data.items.length - 1 = 0 then
            activateTable
              { w with entity_index :=
                  (c0.data.items.getD (c0.data.items.length - 1) 0, t.type_id,
                    index.natAbs - 1 + 1) :: w.entity_index } t false
          else
            { w with entity_index :=
                (c0.data.items.getD (c0.data.items.length - 1) 0, t.type_id,
                  index.natAbs - 1 + 1) :: w.entity_index }),
         { t with columns :=
             { c0 with data := { c0.data with items :=
                 ((c0.data.items.set (index.natAbs - 1)
                    (c0.data.items.getD (c0.data.items.length - 1) 0)).dropLast) } } ::
             rest.map (fun c =>
               if c.size ≠ 0 then
                 { c with data := vecRemoveIndex c.data (index.natAbs - 1) } else c) }) := by
      simp only [ecs_table_delete, hcols]
      rw [if_pos hbr]
    refine ⟨?_, ?_, ?_⟩
    · rw [heq]
      simp only [List.headD_cons]
      exact length_set_dropLast _ _ _
    · rw [heq]
      simp
    · intro j hj
      rw [heq]
      simp only [List.getD_cons_succ]
      simp only [getD_map_col _ _ _ hj]
      by_cases hz : (rest.getD j default).size ≠ 0
      · rw [if_pos hz, if_pos hz]
        refine ⟨rfl, ?_⟩
        simp only [vecRemoveIndex]
        exact length_set_dropLast _ _ _
      · rw [if_neg hz, if_neg hz]
        exact ⟨rfl, rfl⟩
  · have heq : ecs_table_delete w t index =
        ((if ¬w.in_progress ∧ c0.data.items.length - 1 = 0 then
            activateTable w t false else w),
         { t with columns := { c0 with data := vecRemoveLast c0.data } ::
             rest.map (fun c =>
               if c.size ≠ 0 then { c with data := vecRemoveLast c.data } else c) }) := by
      simp only [ecs_table_delete, hcols]
      rw [if_neg hbr]
    refine ⟨?_, ?_, ?_⟩
    · rw [heq]
      simp [vecRemoveLast]
    · rw [heq]
      simp
    · intro j hj
      rw [heq]
      simp only [List.getD_cons_succ]
      simp only [getD_map_col _ _ _ hj]
      by_cases hz : (rest.getD j default).size ≠ 0
      · rw [if_pos hz, if_pos hz]
        refine ⟨rfl, ?_⟩
        simp [vecRemoveLast]
      · rw [if_neg hz, if_neg hz]
        exact ⟨rfl, rfl⟩

/-- The amended C3 statement: balance preservation under successful insert
and grow and under delete, plus the behaviour of zero-size columns. -/
def BalancePreserved (w : EcsWorld) (t : EcsTable)
    (cols : List Column) (isMain : Bool) (ok : Nat → Bool) (e cnt fe : Nat)
    (index : Int) : Prop :=
    ((ecs_table_insert w t cols isMain ok e).2.2 ≠ -1 →
      ColumnsBalanced (ecs_table_insert w t cols isMain ok e).2.1 ∧
      (∀ j, j < cols.length → 1 ≤ j → (cols.getD j default).size = 0 →
        ((ecs_table_insert w t cols isMain ok e).2.1.getD j default).data.items
          = (cols.getD j default).data.items)) ∧
    ((ecs_table_grow w t cols isMain ok cnt fe).2.2 ≠ -1 →
      ColumnsBalanced (ecs_table_grow w t cols isMain ok cnt fe).2.1 ∧
      (∀ j, j < cols.length → 1 ≤ j → (cols.getD j default).size = 0 →
        ((ecs_table_grow w t cols isMain ok cnt fe).2.1.getD j default).data.items
          = (cols.getD j default).data.items ++ List.replicate cnt 0)) ∧
    ColumnsBalanced (ecs_table_delete w t index).2.columns

/-- C3 (amended): the column-balance invariant is preserved by every
`ecs_table_insert` and `ecs_table_grow` that completes successfully (does not
return the out-of-memory sentinel) and by every `ecs_table_delete`;
insert leaves zero-size (tag) columns without any data, while grow appends
`count` zero-size placeholder elements to them. -/
theorem ecs_table_ops_preserve_balance (w : EcsWorld) (t : EcsTable)
    (cols : List Column) (isMain : Bool) (ok : Nat → Bool) (e cnt fe : Nat)
    (index : Int) (c0 : Column) (rest : List Column)
    (hbal : ColumnsBalanced cols)
    (hcols : t.columns = c0 :: rest) (hbalT : ColumnsBalanced t.columns) :
    BalancePreserved w t cols isMain ok e cnt fe index := by
  unfold BalancePreserved
  refine ⟨?_, ?_, ?_⟩
  · -- insert
    intro hsucc
    match cols, hbal, hsucc with
    | [], hbal, hsucc =>
      exact absurd rfl hsucc
    | cI0 :: restI, hbal, hsucc =>
      rcases h0 : vecAdd cI0.data e (ok 0) with _ | ⟨v0, r0⟩
      · rw [show ecs_table_insert w t (cI0 :: restI) isMain ok e
            = (w, cI0 :: restI, -1) from by simp [ecs_table_insert, h0]] at hsucc
        exact absurd rfl hsucc
      · rcases hco : insertColsOk ok 1 restI with _ | _
        · have hf : (insertDataCols ok 1 restI).2.2 = true := by
            rw [insertDataCols_failed, hco]; rfl
          rw [show ecs_table_insert w t (cI0 :: restI) isMain ok e
              = (w, { cI0 with data := v0 } :: (insertDataCols ok 1 restI).1, -1)
              from by simp [ecs_table_insert, h0, hf]] at hsucc
          exact absurd rfl hsucc
        · have hf : (insertDataCols ok 1 restI).2.2 = false := by
            rw [insertDataCols_failed, hco]; rfl
          have hv0 := vecAdd_some cI0.data e (ok 0) v0 r0 h0
          have hsuc := insertDataCols_success ok 1 restI hco
          have hcols2 : (ecs_table_insert w t (cI0 :: restI) isMain ok e).2.1
              = { cI0 with data := v0 } :: (insertDataCols ok 1 restI).1 := by
            simp [ecs_table_insert, h0, hf]
          rw [hcols2]
          constructor
          · intro j hj h1j hsz
            rcases j with _ | j
            · omega
            · simp only [List.getD_cons_succ, List.headD_cons] at hsz ⊢
              have hjr : j < restI.length := by
                simp at hj
                omega
              have hx := hsuc.2 j hjr
              have hszr : (restI.getD j default).size ≠ 0 := by
                rw [hx.1] at hsz
                exact hsz
              have hold := hbal (j + 1) (by simp; omega) (by omega)
                (by simpa using hszr)
              simp only [List.getD_cons_succ, List.headD_cons] at hold
              rw [hx.2, if_pos hszr, hv0.1]
              simp only [List.length_append, List.length_singleton]
              omega
          · intro j hj h1j hsz
            rcases j with _ | j
            · omega
            · simp only [List.getD_cons_succ] at hsz ⊢
              have hjr : j < restI.length := by simp at hj; omega
              have hx := hsuc.2 j hjr
              rw [hx.2, if_neg (by simpa using hsz)]
  · -- grow
    intro hsucc
    match cols, hbal, hsucc with
    | [], hbal, hsucc =>
      exact absurd rfl hsucc
    | cI0 :: restI, hbal, hsucc =>
      rcases h0 : vecAddn cI0.data ((List.range cnt).map (fun i => fe + i)) (ok 0)
        with _ | ⟨v0, r0⟩
      · rw [show ecs_table_grow w t (cI0 :: restI) isMain ok cnt fe
            = (w, cI0 :: restI, -1) from by simp [ecs_table_grow, h0]] at hsucc
        exact absurd rfl hsucc
      · rcases hco : growColsOk ok cnt 1 restI with _ | _
        · have hf : (growDataCols ok cnt 1 restI).2.2 = true := by
            rw [growDataCols_failed, hco]; rfl
          rw [show ecs_table_grow w t (cI0 :: restI) isMain ok cnt fe
              = (w, { cI0 with data := v0 } :: (growDataCols ok cnt 1 restI).1, -1)
              from by simp [ecs_table_grow, h0, hf]] at hsucc
          exact absurd rfl hsucc
        · have hf : (growDataCols ok cnt 1 restI).2.2 = false := by
            rw [growDataCols_failed, hco]; rfl
          have hv0 := vecAddn_some cI0.data _ (ok 0) v0 r0 h0
          have hsuc := growDataCols_success ok cnt 1 restI hco
          have hcols2 : (ecs_table_grow w t (cI0 :: restI) isMain ok cnt fe).2.1
              = { cI0 with data := v0 } :: (growDataCols ok cnt 1 restI).1 := by
            simp [ecs_table_grow, h0, hf]
          rw [hcols2]
          constructor
          · intro j hj h1j hsz
            rcases j with _ | j
            · omega
            · simp only [List.getD_cons_succ, List.headD_cons] at hsz ⊢
              have hjr : j < restI.length := by
                simp at hj
                omega
              have hx := hsuc.2 j hjr
              have hszr : (restI.getD j default).size ≠ 0 := by
                rw [hx.1] at hsz
                exact hsz
              have hold := hbal (j + 1) (by simp; omega) (by omega)
                (by simpa using hszr)
              simp only [List.getD_cons_succ, List.headD_cons] at hold
              rw [hx.2, hv0.1]
              simp only [List.length_append, List.length_replicate,
                List.length_map, List.length_range]
              omega
          · intro j hj h1j hsz
            rcases j with _ | j
            · omega
            · simp only [List.getD_cons_succ] at hsz ⊢
              have hjr : j < restI.length := by simp at hj; omega
              have hx := hsuc.2 j hjr
              rw [hx.2]
  · -- delete
    have hdel := ecs_table_delete_lengths w t index c0 rest hcols
    intro j hj h1j hsz
    rcases j with _ | j
    · omega
    · have hjr : j < rest.length := by
        rw [hdel.2.1] at hj
        omega
      have hx := hdel.2.2 j hjr
      rw [hx.1] at hsz
      rw [hdel.1]
      have hxx := hx.2
      rw [if_pos hsz] at hxx
      rw [hxx]
      have hold := hbalT (j + 1) (by rw [hcols]; simp; omega) (by omega)
        (by rw [hcols]; simpa using hsz)
      rw [hcols] at hold
      simp only [List.getD_cons_succ, List.headD_cons] at hold
      omega

/-- Witness for the amended C3 at a concrete input: a fresh column set with
room to spare, inserted into / grown / deleted-from the three-entity witness
table, all allocations permitted. -/
def c3wCols : List Column :=
  [{ size := 8, data := { cap := 4, items := [1, 2] } },
   { size := 4, data := { cap := 4, items := [5, 6] } }]

theorem ecs_table_ops_preserve_balance_witness :
    (ColumnsBalanced c3wCols ∧ c2wTable.columns = c2wC0 :: [c2wC1] ∧
     ColumnsBalanced c2wTable.columns) ∧
    BalancePreserved w0 c2wTable c3wCols true (fun _ => true) 7 2 100 1 :=
  ⟨⟨by decide, by decide, by decide⟩,
   ecs_table_ops_preserve_balance w0 c2wTable c3wCols true (fun _ => true) 7 2 100 1
     c2wC0 [c2wC1] (by decide) (by decide) (by decide)⟩

/-- Table for the C8 counterexample: only the entity column, no data
columns. -/
def c8Table : EcsTable :=
  { type_id := 3, type := [], columns := [{ size := 8, data := Vec.nil }],
    frame_systems := [] }

/-- Staged column set for the C8 counterexample: the 4-byte data column is
full, so it must reallocate. -/
def c8Staged : List Column :=
  [{ size := 8, data := { cap := 2, items := [1] } },
   { size := 4, data := { cap := 1, items := [9] } }]

def c8StagedTable : EcsTable :=
  { type_id := 4, type := [7], columns := c8Staged, frame_systems := [] }

/-- Counterexample to C8 as stated.  First part: inserting into a table whose
only column is the entity column makes the entity column's vector reallocate
(the `vecAdd` reallocation flag is true), yet `should_resolve` stays false —
the code never inspects column 0's reallocation.  Second part: inserting into
a staged shadow column set (`table->columns != columns`) whose data column
reallocates also leaves the flag false. -/
theorem ecs_table_insert_realloc_counterexample :
    ((vecAdd Vec.nil 6 true).map Prod.snd = some true ∧
     (ecs_table_insert w0 c8Table [{ size := 8, data := Vec.nil }]
        true (fun _ => true) 6).2.2 ≠ -1 ∧
     (ecs_table_insert w0 c8Table [{ size := 8, data := Vec.nil }]
        true (fun _ => true) 6).1.should_resolve = false) ∧
    (((c8Staged.getD 1 default).data.needsRealloc 1 = true) ∧
     (ecs_table_insert w0 c8StagedTable c8Staged false (fun _ => true) 6).2.2 ≠ -1 ∧
     (ecs_table_insert w0 c8StagedTable c8Staged false
        (fun _ => true) 6).1.should_resolve = false) := by
  decide

/-- The amended C8 statement: after a successful insert or grow, the world's
`should_resolve` flag is true exactly when it was already true or the written
column set is the table's primary one and some data column (non-zero-size for
insert; any column other than column 0 for grow) had to reallocate. -/
def ReallocFlagSpec (w : EcsWorld) (t : EcsTable) (cols : List Column)
    (isMain : Bool) (ok : Nat → Bool) (e cnt fe : Nat) : Prop :=
  ((ecs_table_insert w t cols isMain ok e).2.2 ≠ -1 →
    ((ecs_table_insert w t cols isMain ok e).1.should_resolve = true ↔
      (w.should_resolve = true ∨ (isMain = true ∧
        ∃ j, j < cols.length ∧ 1 ≤ j ∧ (cols.getD j default).size ≠ 0 ∧
          (cols.getD j default).data.needsRealloc 1 = true)))) ∧
  ((ecs_table_grow w t cols isMain ok cnt fe).2.2 ≠ -1 →
    ((ecs_table_grow w t cols isMain ok cnt fe).1.should_resolve = true ↔
      (w.should_resolve = true ∨ (isMain = true ∧
        ∃ j, j < cols.length ∧ 1 ≤ j ∧
          (cols.getD j default).data.needsRealloc cnt = true))))

/-- C8 (amended): the `should_resolve` flag after a successful insert/grow is
characterised by reallocation of the data columns of the table's primary
column set; reallocation of column 0 alone, or of a staged column set, does
not raise it. -/
theorem ecs_table_realloc_flag (w : EcsWorld) (t : EcsTable)
    (cols : List Column) (isMain : Bool) (ok : Nat → Bool) (e cnt fe : Nat) :
    ReallocFlagSpec w t cols isMain ok e cnt fe := by
  unfold ReallocFlagSpec
  constructor
  · -- insert
    intro hsucc
    match cols, hsucc with
    | [], hsucc => exact absurd rfl hsucc
    | cI0 :: restI, hsucc =>
      rcases h0 : vecAdd cI0.data e (ok 0) with _ | ⟨v0, r0⟩
      · rw [show ecs_table_insert w t (cI0 :: restI) isMain ok e
            = (w, cI0 :: restI, -1) from by simp [ecs_table_insert, h0]] at hsucc
        exact absurd rfl hsucc
      · rcases hco : insertColsOk ok 1 restI with _ | _
        · have hf : (insertDataCols ok 1 restI).2.2 = true := by
            rw [insertDataCols_failed, hco]; rfl
          rw [show ecs_table_insert w t (cI0 :: restI) isMain ok e
              = (w, { cI0 with data := v0 } :: (insertDataCols ok 1 restI).1, -1)
              from by simp [ecs_table_insert, h0, hf]] at hsucc
          exact absurd rfl hsucc
        · have hf : (insertDataCols ok 1 restI).2.2 = false := by
            rw [insertDataCols_failed, hco]; rfl
          have hsr : (ecs_table_insert w t (cI0 :: restI) isMain ok e).1.should_resolve
              = (if (insertDataCols ok 1 restI).2.1 = true ∧ isMain = true
                 then true else w.should_resolve) := by
            simp only [ecs_table_insert, h0]
            rw [hf]
            simp only [Bool.false_eq_true, if_false]
            by_cases hA : (insertDataCols ok 1 restI).2.1 = true ∧ isMain = true
            · rw [if_pos hA, if_pos hA]
            · rw [if_neg hA, if_neg hA]
              by_cases hB : ¬w.in_progress = true ∧ v0.items.length - 1 = 0
              · rw [if_pos hB]
                rfl
              · rw [if_neg hB]
          rw [hsr]
          have hiff := insertDataCols_reallocd ok 1 restI hco
          by_cases hA : (insertDataCols ok 1 restI).2.1 = true ∧ isMain = true
          · rw [if_pos hA]
            rcases hiff.mp hA.1 with ⟨j, hj, hsz, hre⟩
            constructor
            · intro _
              exact Or.inr ⟨hA.2, j + 1, by simp [hj], by omega,
                by simpa using hsz, by simpa using hre⟩
            · intro _
              rfl
          · rw [if_neg hA]
            constructor
            · intro hw
              exact Or.inl hw
            · intro hw
              rcases hw with hw | ⟨hm, j, hj, h1j, hsz, hre⟩
              · exact hw
              · exfalso
                rcases j with _ | j
                · omega
                · have : (insertDataCols ok 1 restI).2.1 = true :=
                    hiff.mpr ⟨j, by simpa using hj, by simpa using hsz,
                      by simpa using hre⟩
                  exact hA ⟨this, hm⟩
  · -- grow
    intro hsucc
    match cols, hsucc with
    | [], hsucc => exact absurd rfl hsucc
    | cI0 :: restI, hsucc =>
      rcases h0 : vecAddn cI0.data ((List.range cnt).map (fun i => fe + i)) (ok 0)
        with _ | ⟨v0, r0⟩
      · rw [show ecs_table_grow w t (cI0 :: restI) isMain ok cnt fe
            = (w, cI0 :: restI, -1) from by simp [ecs_table_grow, h0]] at hsucc
        exact absurd rfl hsucc
      · rcases hco : growColsOk ok cnt 1 restI with _ | _
        · have hf : (growDataCols ok cnt 1 restI).2.2 = true := by
            rw [growDataCols_failed, hco]; rfl
          rw [show ecs_table_grow w t (cI0 :: restI) isMain ok cnt fe
              = (w, { cI0 with data := v0 } :: (growDataCols ok cnt 1 restI).1, -1)
              from by simp [ecs_table_grow, h0, hf]] at hsucc
          exact absurd rfl hsucc
        · have hf : (growDataCols ok cnt 1 restI).2.2 = false := by
            rw [growDataCols_failed, hco]; rfl
          have hsr : (ecs_table_grow w t (cI0 :: restI) isMain ok cnt fe).1.should_resolve
              = (if (growDataCols ok cnt 1 restI).2.1 = true ∧ isMain = true
                 then true else w.should_resolve) := by
            simp only [ecs_table_grow, h0]
            rw [hf]
            simp only [Bool.false_eq_true, if_false]
            by_cases hA : (growDataCols ok cnt 1 restI).2.1 = true ∧ isMain = true
            · rw [if_pos hA, if_pos hA]
            · rw [if_neg hA, if_neg hA]
              by_cases hB : ¬w.in_progress = true ∧ v0.items.length = cnt
              · rw [if_pos hB]
                rfl
              · rw [if_neg hB]
          rw [hsr]
          have hiff := growDataCols_reallocd ok cnt 1 restI hco
          by_cases hA : (growDataCols ok cnt 1 restI).2.1 = true ∧ isMain = true
          · rw [if_pos hA]
            rcases hiff.mp hA.1 with ⟨j, hj, hre⟩
            constructor
            · intro _
              exact Or.inr ⟨hA.2, j + 1, by simp [hj], by omega, by simpa using hre⟩
            · intro _
              rfl
          · rw [if_neg hA]
            constructor
            · intro hw
              exact Or.inl hw
            · intro hw
              rcases hw with hw | ⟨hm, j, hj, h1j, hre⟩
              · exact hw
              · exfalso
                rcases j with _ | j
                · omega
                · have : (growDataCols ok cnt 1 restI).2.1 = true :=
                    hiff.mpr ⟨j, by simpa using hj, by simpa using hre⟩
                  exact hA ⟨this, hm⟩

/-- Witness for the amended C8: a successful insert into the primary column
set whose full data column must reallocate, raising the flag. -/
def c8wCols : List Column :=
  [{ size := 8, data := { cap := 2, items := [1] } },
   { size := 4, data := { cap := 1, items := [9] } }]

theorem ecs_table_realloc_flag_witness :
    ((ecs_table_insert w0 c8StagedTable c8wCols true (fun _ => true) 6).2.2 ≠ -1 ∧
     (ecs_table_grow w0 c8StagedTable c8wCols true (fun _ => true) 2 50).2.2 ≠ -1) ∧
    ReallocFlagSpec w0 c8StagedTable c8wCols true (fun _ => true) 6 2 50 :=
  ⟨⟨by decide, by decide⟩,
   ecs_table_realloc_flag w0 c8StagedTable c8wCols true (fun _ => true) 6 2 50⟩

/-! ## Query matcher model (src/query.c).

Entities are `Nat` below `2^64`; the `CHILDOF` role flag is the high bit
(modelled from the spec: the flag constants live in a header not among the
sources).  The external collaborators consumed by query.c — the entity index
(`ecs_get_entity` / `ecs_get_type`), component metadata (`EcsComponent` with
its `size`), the type interner (`ecs_type_contains`, `ecs_type_index_of`,
`ecs_type_has_entity_intern`) and prefab resolution
(`ecs_find_entity_in_prefabs`, the world prefab index) — are modelled from
the spec (§4.3), with the prefab chain walked through the world's
`type -> prefab ancestor` index under an explicit recursion fuel. -/

def ECS_CHILDOF : Nat := 2 ^ 63

def ECS_INVALID_ENTITY : Nat := 0

/-- `entity & ECS_CHILDOF` as a test on entities below `2^64`. -/
def isChildOfEntry (e : Nat) : Bool := decide ((e / ECS_CHILDOF) % 2 = 1)

/-- `entity & ECS_ENTITY_MASK`: strip the role bits. -/
def maskEntity (e : Nat) : Nat := e % ECS_CHILDOF

/-- The world as seen by the query matcher: the entity index (`rows` maps an
entity to its table's type; the inner `Option` is the possibly-NULL
`row->table`), the `EcsComponent` metadata, the prefab index keyed by table
type, and the ids of the builtin `EcsDisabled` / `EcsPrefab` markers. -/
structure QWorld where
  rows : List (Nat × Option (List Nat))
  compSize : List (Nat × Nat)
  prefabOf : List (List Nat × Nat)
  eDisabled : Nat
  ePrefab : Nat
  deriving Repr, DecidableEq

/-- `ecs_get_type`: the current type of an entity (empty when the entity has
no row or no table). -/
def typeOfEntity (w : QWorld) (e : Nat) : List Nat :=
  ((List.lookup e w.rows).getD none).getD []

/-- Modelled from the spec: `ecs_type_has_entity_intern(world, type, entity,
match_prefab)` — membership, optionally searching the prefab chain through
the world's prefab index. -/
def ecs_type_has_entity_intern (w : QWorld) : Nat → List Nat → Nat → Bool → Bool
  | 0, _, _, _ => false
  | fuel + 1, t, c, matchPrefab =>
    if c ∈ t then true
    else if matchPrefab then
      match List.lookup t w.prefabOf with
      | some p =>
        match List.lookup p w.rows with
        | some (some pt) => ecs_type_has_entity_intern w fuel pt c true
        | _ => false
      | none => false
    else false

/-- Modelled from the spec: `ecs_type_contains(world, type_1, type_2,
match_all, match_prefab) -> id_or_0`.  With `match_all` it answers whether
every member of `type_2` is reachable; otherwise it returns the first member
of `type_2` (in the type's ascending id order) found in `type_1`. -/
def ecs_type_contains (w : QWorld) (fuel : Nat) (t1 t2 : List Nat)
    (matchAll matchPrefab : Bool) : Nat :=
  if matchAll then
    match t2 with
    | [] => 0
    | c :: _ =>
      if t2.all (fun c2 => ecs_type_has_entity_intern w fuel t1 c2 matchPrefab)
      then c else 0
  else
    (t2.find? (fun c2 => ecs_type_has_entity_intern w fuel t1 c2 matchPrefab)).getD 0

/-- Modelled from the spec: `ecs_find_entity_in_prefabs` — walk the prefab
chain of a type and return the prefab entity that holds `component` (0 when
there is none). -/
def ecs_find_entity_in_prefabs (w : QWorld) : Nat → List Nat → Nat → Nat
  | 0, _, _ => 0
  | fuel + 1, t, c =>
    match List.lookup t w.prefabOf with
    | none => 0
    | some p =>
      match List.lookup p w.rows with
      | some (some pt) => if c ∈ pt then p else ecs_find_entity_in_prefabs w fuel pt c
      | _ => 0

/-- `ecs_get_entity_for_component` (src/query.c lines 40-66): the entity on
which the component is actually stored; falls back to the prefab chain when
the entity's own type lacks it. -/
def ecs_get_entity_for_component (w : QWorld) (fuel : Nat) (entity : Nat)
    (typ : List Nat) (component : Nat) : Nat :=
  let t := if entity ≠ 0 then typeOfEntity w entity else typ
  if component ∈ t then entity
  else ecs_find_entity_in_prefabs w fuel t component

/-- `components_contains` (src/query.c lines 4-37): walk the table's type in
order; for each `CHILDOF` entry whose parent has a table, test whether the
parent's type contains (prefabs included) a member of `type`; on the first
hit return that member and the parent.  The C asserts that every parent has
an entity-index row (`ECS_INTERNAL_ERROR`); a missing row is skipped here and
excluded by hypotheses where it matters. -/
def components_contains (w : QWorld) (fuel : Nat) :
    List Nat → List Nat → Bool → Nat × Nat
  | [], _, _ => (0, 0)
  | e :: rest, typ, match_all =>
    if isChildOfEntry e then
      let entity := maskEntity e
      match List.lookup entity w.rows with
      | some (some pt) =>
        let component := ecs_type_contains w fuel pt typ match_all true
        if component ≠ 0 then (component, entity)
        else components_contains w fuel rest typ match_all
      | _ => components_contains w fuel rest typ match_all
    else components_contains w fuel rest typ match_all

/-- Modelled from the spec: `ecs_components_contains_component(world, type,
component, ECS_CHILDOF, &entity)` — the first `CHILDOF` parent whose own
table contains `component`; 0 when there is none. -/
def ecs_components_contains_component (w : QWorld) :
    List Nat → Nat → Nat
  | [], _ => 0
  | e :: rest, component =>
    if isChildOfEntry e then
      let entity := maskEntity e
      match List.lookup entity w.rows with
      | some (some pt) =>
        if component ∈ pt then entity
        else ecs_components_contains_component w rest component
      | _ => ecs_components_contains_component w rest component
    else ecs_components_contains_component w rest component

/-- `ecs_type_index_of`: 0-based index of a component in a type, -1 when
absent. -/
def typeIndexOfGo : List Nat → Nat → Nat → Int
  | [], _, _ => -1
  | x :: rest, c, i => if x = c then (i : Int) else typeIndexOfGo rest c (i + 1)

def ecs_type_index_of (t : List Nat) (c : Nat) : Int := typeIndexOfGo t c 0

/-- Signature column source kinds (`ecs_signature_from_kind_t`). -/
inductive FromKind where
  | EcsFromSelf | EcsFromOwned | EcsFromShared | EcsFromEntity
  | EcsFromContainer | EcsCascade | EcsFromSystem | EcsFromEmpty
  deriving Repr, DecidableEq, Inhabited

export FromKind (EcsFromSelf EcsFromOwned EcsFromShared EcsFromEntity
  EcsFromContainer EcsCascade EcsFromSystem EcsFromEmpty)

/-- Signature column operators (`ecs_signature_op_kind_t`). -/
inductive OpKind where
  | EcsOperAnd | EcsOperOr | EcsOperNot | EcsOperOptional
  deriving Repr, DecidableEq, Inhabited

export OpKind (EcsOperAnd EcsOperOr EcsOperNot EcsOperOptional)

/-- `ecs_signature_column_t`: `frm` is the C field `from` (a Lean keyword);
`component` / `typ` model the union `is`. -/
structure SigColumn where
  frm : FromKind
  op : OpKind
  component : Nat
  typ : List Nat
  source : Nat
  deriving Repr, DecidableEq, Inhabited

/-- `ecs_reference_t`; the cached pointer is `some (holder, component)` for a
non-NULL `ecs_get_ptr_intern` result, `none` for NULL. -/
structure Reference where
  entity : Nat
  component : Nat
  cached_ptr : Option (Nat × Nat)
  deriving Repr, DecidableEq

structure QTable where
  id : Nat
  typ : List Nat
  deriving Repr, DecidableEq, Inhabited

/-- `ecs_matched_table_t`: a slot of `none` models the uninitialised
malloc'd plan entry that the C never assigns on some paths. -/
structure MatchedTable where
  table : QTable
  columns : List (Option Int)
  components : List Nat
  references : List Reference
  deriving Repr, DecidableEq, Inhabited

/-- `ecs_query_t` together with the aggregates computed by `postprocess`.
`watched` collects the `ecs_set_watch` registrations (stored on the world by
the C; carried on the query here since nothing in the matcher reads them). -/
structure Query where
  sig_columns : List SigColumn
  match_disabled : Bool
  match_prefab : Bool
  system : Nat
  cascade_by : Nat
  has_refs : Bool
  and_from_self : List Nat
  and_from_owned : List Nat
  and_from_shared : List Nat
  and_from_system : List Nat
  not_from_self : List Nat
  not_from_owned : List Nat
  not_from_shared : List Nat
  not_from_component : List Nat
  watched : List Nat
  tables : List MatchedTable
  deriving Repr, DecidableEq

/-- `ecs_type_add_intern` on the interner's sorted-id representation:
sorted insert without duplicates. -/
def ecs_type_add_intern : List Nat → Nat → List Nat
  | [], c => [c]
  | x :: rest, c =>
    if c = x then x :: rest
    else if c < x then c :: x :: rest
    else x :: ecs_type_add_intern rest c

/-- One step of `postprocess` (src/query.c lines 421-485) for the signature
column at 0-based position `i`. -/
def postprocessColumn (q : Query) (i : Nat) (col : SigColumn) : Query :=
  if col.frm = EcsFromEntity then { q with watched := q.watched ++ [col.source] }
  else if col.frm = EcsCascade then { q with cascade_by := i + 1 }
  else if col.op = EcsOperOr then q
  else if col.op = EcsOperNot then
    if col.frm = EcsFromSelf then
      { q with not_from_self := ecs_type_add_intern q.not_from_self col.component }
    else if col.frm = EcsFromOwned then
      { q with not_from_owned := ecs_type_add_intern q.not_from_owned col.component }
    else if col.frm = EcsFromShared then
      { q with not_from_shared := ecs_type_add_intern q.not_from_shared col.component }
    else
      { q with not_from_component :=
          ecs_type_add_intern q.not_from_component col.component }
  else if col.op = EcsOperAnd then
    if col.frm = EcsFromSelf then
      { q with and_from_self := ecs_type_add_intern q.and_from_self col.component }
    else if col.frm = EcsFromOwned then
      { q with and_from_owned := ecs_type_add_intern q.and_from_owned col.component }
    else if col.frm = EcsFromShared then
      { q with and_from_shared := ecs_type_add_intern q.and_from_shared col.component }
    else if col.frm = EcsFromSystem then
      { q with and_from_system := ecs_type_add_intern q.and_from_system col.component }
    else q
  else q

def postprocessGo (i : Nat) : Query → List SigColumn → Query
  | q, [] => q
  | q, c :: rest => postprocessGo (i + 1) (postprocessColumn q i c) rest

/-- `postprocess` (src/query.c). -/
def postprocess (q : Query) : Query := postprocessGo 0 q q.sig_columns

/-- The per-column verification inside `match_table` (the loop over the
signature, src/query.c lines 324-372), as a pass-condition. -/
def match_table_column (w : QWorld) (fuel : Nat) (tt : List Nat)
    (col : SigColumn) : Bool :=
  if col.op = EcsOperAnd then
    if col.frm = EcsFromSelf ∨ col.frm = EcsFromOwned ∨ col.frm = EcsFromShared then
      true
    else if col.frm = EcsFromContainer then
      decide (ecs_components_contains_component w tt col.component ≠ 0)
    else if col.frm = EcsFromEntity then
      decide (col.component ∈ typeOfEntity w col.source)
    else true
  else if col.op = EcsOperOr then
    if col.frm = EcsFromSelf then
      decide (ecs_type_contains w fuel tt col.typ false true ≠ 0)
    else if col.frm = EcsFromContainer then
      decide ((components_contains w fuel tt col.typ false).1 ≠ 0)
    else true
  else if col.op = EcsOperNot then
    if col.frm = EcsFromEntity then
      !(decide (col.component ∈ typeOfEntity w col.source))
    else true
  else true

/-- `match_table` (src/query.c lines 269-402) as the conjunction of its
pass-conditions; the C's early `return false`s make it exactly this
conjunction since every check is pure. -/
def match_table (w : QWorld) (fuel : Nat) (t : QTable) (q : Query) : Bool :=
  (q.match_disabled || !(ecs_type_has_entity_intern w fuel t.typ w.eDisabled false)) &&
  (q.match_prefab || !(ecs_type_has_entity_intern w fuel t.typ w.ePrefab false)) &&
  (decide (q.and_from_self = []) ||
    decide (ecs_type_contains w fuel t.typ q.and_from_self true true ≠ 0)) &&
  (decide (q.and_from_owned = []) ||
    decide (ecs_type_contains w fuel t.typ q.and_from_owned true false ≠ 0)) &&
  (decide (q.and_from_shared = []) ||
    decide (ecs_type_contains w fuel t.typ q.and_from_shared true false = 0)) &&
  (decide (q.and_from_shared = []) ||
    decide (ecs_type_contains w fuel t.typ q.and_from_shared true true ≠ 0)) &&
  q.sig_columns.all (match_table_column w fuel t.typ) &&
  (decide (q.not_from_self = []) ||
    decide (ecs_type_contains w fuel t.typ q.not_from_self false true = 0)) &&
  (decide (q.not_from_owned = []) ||
    decide (ecs_type_contains w fuel t.typ q.not_from_owned false false = 0)) &&
  (decide (q.not_from_shared = []) ||
    decide (ecs_type_contains w fuel t.typ q.not_from_shared false false ≠ 0) ||
    decide (ecs_type_contains w fuel t.typ q.not_from_shared false true = 0)) &&
  (decide (q.not_from_component = []) ||
    decide ((components_contains w fuel t.typ q.not_from_component false).1 = 0))

/-- `ecs_get_ptr_intern(world, &world->main_stage, e, component, false,
true)`, modelled from the spec: non-NULL exactly when the component is
reachable from `e` (prefabs included). -/
def ecs_get_ptr (w : QWorld) (fuel : Nat) (e c : Nat) : Option (Nat × Nat) :=
  if ecs_type_has_entity_intern w fuel (typeOfEntity w e) c true then some (e, c)
  else none

/-- The running state of `add_table`'s column loop. -/
structure AddState where
  columns : List (Option Int)
  components : List Nat
  references : List Reference
  has_refs : Bool
  watched : List Nat
  deriving Repr, DecidableEq

def AddState.empty : AddState :=
  { columns := [], components := [], references := [], has_refs := false,
    watched := [] }

/-- The `(entity, component)` resolution at the top of `add_table`'s loop
body (src/query.c lines 97-156). -/
def add_table_resolve (w : QWorld) (fuel : Nat) (q : Query) (tt : List Nat)
    (col : SigColumn) : Nat × Nat :=
  if col.frm = EcsFromSelf ∨ col.frm = EcsFromEntity ∨
     col.frm = EcsFromOwned ∨ col.frm = EcsFromShared then
    let component :=
      if col.op = EcsOperAnd then col.component
      else if col.op = EcsOperOptional then col.component
      else if col.op = EcsOperOr then ecs_type_contains w fuel tt col.typ false true
      else 0
    (if col.frm = EcsFromEntity then col.source else 0, component)
  else if col.frm = EcsFromEmpty then (0, col.component)
  else if col.frm = EcsFromContainer ∨ col.frm = EcsCascade then
    if col.op = EcsOperAnd ∨ col.op = EcsOperOptional then
      (ecs_components_contains_component w tt col.component, col.component)
    else if col.op = EcsOperOr then
      let cc := components_contains w fuel tt col.typ false
      (cc.2, cc.1)
    else (0, 0)
  else if col.frm = EcsFromSystem then
    (q.system, if col.op = EcsOperAnd then col.component else 0)
  else (0, 0)

/-- The plan-slot computation of `add_table` before the reference branch
(src/query.c lines 126-193): the `EcsFromEmpty` zero, the table-index
lookup with the tag override, and the `Optional`-absent override.  `none` is
the uninitialised slot. -/
def add_table_slot (w : QWorld) (fuel : Nat) (tt : List Nat) (col : SigColumn)
    (entity component : Nat) : Option Int :=
  let slot0 : Option Int := if col.frm = EcsFromEmpty then some 0 else none
  let slot1 : Option Int :=
    if entity = 0 ∧ col.frm ≠ EcsFromEmpty ∧ component ≠ 0 then
      let i := ecs_type_index_of tt component
      if i ≠ -1 then
        match List.lookup component w.compSize with
        | some sz => if sz = 0 then some 0 else some (i + 1)
        | none => some 0
      else some (-1)
    else slot0
  if col.op = EcsOperOptional ∧
     ¬(ecs_type_has_entity_intern w fuel tt component true) = true then some 0
  else slot1

/-- One iteration of `add_table`'s column loop (src/query.c lines 97-265),
appending the plan slot, the resolved component, and possibly a reference. -/
def add_table_column (w : QWorld) (fuel : Nat) (q : Query) (tt : List Nat)
    (st : AddState) (col : SigColumn) : AddState :=
  let ec := add_table_resolve w fuel q tt col
  let entity := ec.1
  let component := ec.2
  let slot := add_table_slot w fuel tt col entity component
  if entity ≠ 0 ∨ slot = some (-1) ∨ col.frm = EcsCascade then
    match List.lookup component w.compSize with
    | some sz =>
      if sz ≠ 0 then
        let e := if col.frm = EcsFromEntity then entity
                 else if col.frm = EcsCascade then entity
                 else ecs_get_entity_for_component w fuel entity tt component
        let cached := if e ≠ ECS_INVALID_ENTITY then ecs_get_ptr w fuel e component
                      else none
        { columns := st.columns ++ [some (-(st.references.length + 1 : Int))],
          components := st.components ++ [component],
          references := st.references ++
            [{ entity := e, component := component, cached_ptr := cached }],
          has_refs := true,
          watched := if e ≠ ECS_INVALID_ENTITY then st.watched ++ [e] else st.watched }
      else
        { st with columns := st.columns ++ [slot],
                  components := st.components ++ [component] }
    | none =>
      { st with columns := st.columns ++ [slot],
                components := st.components ++ [component] }
  else
    { st with columns := st.columns ++ [slot],
              components := st.components ++ [component] }

/-- `add_table` (src/query.c lines 68-266). -/
def add_table (w : QWorld) (fuel : Nat) (q : Query) (t : QTable) : Query :=
  let st := q.sig_columns.foldl (add_table_column w fuel q t.typ) AddState.empty
  { q with
    tables := q.tables ++
      [{ table := t, columns := st.columns, components := st.components,
         references := st.references }],
    has_refs := q.has_refs || st.has_refs,
    watched := q.watched ++ st.watched }

/-- `ecs_query_match_table` (src/query.c lines 513-522). -/
def ecs_query_match_table (w : QWorld) (fuel : Nat) (q : Query) (t : QTable) :
    Query :=
  if match_table w fuel t q then add_table w fuel q t else q

/-- `match_tables` (src/query.c lines 404-419): offer every existing table,
in creation order. -/
def match_tables (w : QWorld) (fuel : Nat) : Query → List QTable → Query
  | q, [] => q
  | q, t :: rest =>
    match_tables w fuel (if match_table w fuel t q then add_table w fuel q t else q) rest

/-- A fresh query record holding only the signature (the state of
`ecs_new_query`'s result before `postprocess`). -/
def mkQuery (sig : List SigColumn) (match_disabled match_prefab : Bool)
    (system : Nat) : Query :=
  { sig_columns := sig, match_disabled := match_disabled,
    match_prefab := match_prefab, system := system, cascade_by := 0,
    has_refs := false, and_from_self := [], and_from_owned := [],
    and_from_shared := [], and_from_system := [], not_from_self := [],
    not_from_owned := [], not_from_shared := [], not_from_component := [],
    watched := [], tables := [] }

/-- `ecs_new_query` (src/query.c lines 489-504): preprocess the signature,
then match against all existing tables. -/
def ecs_new_query (w : QWorld) (fuel : Nat) (tables : List QTable)
    (sig : List SigColumn) (match_disabled match_prefab : Bool)
    (system : Nat) : Query :=
  match_tables w fuel (postprocess (mkQuery sig match_disabled match_prefab system))
    tables

/-- C6: offering tables one by one to an existing query
(`ecs_query_match_table`) produces exactly the matched-table list (same
tables, same plans, same order) that `ecs_new_query` produces when all the
tables already exist, because both paths run the same `match_table` /
`add_table` pair per table in creation order. -/
theorem query_new_match_commute (w : QWorld) (fuel : Nat)
    (tables : List QTable) (sig : List SigColumn) (md mp : Bool) (sys : Nat) :
    (ecs_new_query w fuel tables sig md mp sys).tables =
      (tables.foldl (ecs_query_match_table w fuel)
        (ecs_new_query w fuel [] sig md mp sys)).tables := by
  have hmt : ∀ (ts : List QTable) (q : Query),
      match_tables w fuel q ts = ts.foldl (ecs_query_match_table w fuel) q := by
    intro ts
    induction ts with
    | nil => intro q; rfl
    | cons t rest ih =>
      intro q
      simp only [match_tables, List.foldl, ecs_query_match_table]
      exact ih _
  rw [ecs_new_query, ecs_new_query, hmt]
  rfl

/-- C5: when the preprocessed signature has a non-empty `and_from_shared`
aggregate, a table can only match if it does not own the whole aggregate
(owning would override the shared source) while the aggregate is reachable
through its prefab chain. -/
theorem match_table_shared_conditions (w : QWorld) (fuel : Nat) (t : QTable)
    (q : Query) (hne : q.and_from_shared ≠ [])
    (hm : match_table w fuel t q = true) :
    ecs_type_contains w fuel t.typ q.and_from_shared true false = 0 ∧
    ecs_type_contains w fuel t.typ q.and_from_shared true true ≠ 0 := by
  unfold match_table at hm
  simp only [Bool.and_eq_true, Bool.or_eq_true, decide_eq_true_eq] at hm
  have hE := hm.1.1.1.1.1.1.2
  have hF := hm.1.1.1.1.1.2
  constructor
  · rcases hE with hE | hE
    · exact absurd hE hne
    · exact hE
  · rcases hF with hF | hF
    · exact absurd hF hne
    · exact hF

/-- The concrete C5 witness world: table type `[10]` owns nothing of the
shared aggregate `[30]`, while its prefab `99` owns component 30. -/
def w5 : QWorld :=
  { rows := [(99, some [30])], compSize := [], prefabOf := [([10], 99)],
    eDisabled := 1, ePrefab := 2 }

def q5 : Query := { mkQuery [] false false 0 with and_from_shared := [30] }

def t5 : QTable := { id := 1, typ := [10] }

theorem match_table_shared_conditions_witness :
    (q5.and_from_shared ≠ [] ∧ match_table w5 8 t5 q5 = true) ∧
    (ecs_type_contains w5 8 t5.typ q5.and_from_shared true false = 0 ∧
     ecs_type_contains w5 8 t5.typ q5.and_from_shared true true ≠ 0) :=
  ⟨⟨by decide, by decide⟩,
   match_table_shared_conditions w5 8 t5 q5 (by decide) (by decide)⟩

/-- World, query and table for the C9 counterexample: a Cascade column on
component 77, which has no `EcsComponent` record (a pure tag). -/
def c9Col : SigColumn :=
  { frm := EcsCascade, op := EcsOperAnd, component := 77, typ := [], source := 0 }

def w9 : QWorld :=
  { rows := [], compSize := [], prefabOf := [], eDisabled := 1, ePrefab := 2 }

def q9 : Query := postprocess (mkQuery [c9Col] false false 0)

def t9 : QTable := { id := 1, typ := [] }

/-- Counterexample to C9 as stated: the table matches the Cascade signature,
but because component 77 has no data (no `EcsComponent` record) the
reference branch appends nothing: the matched record has an empty reference
list and the slot keeps the `-1` left by the failed index lookup, instead of
the claimed reference entry with entity 0. -/
theorem add_table_cascade_tag_counterexample :
    match_table w9 5 t9 q9 = true ∧
    ((add_table w9 5 q9 t9).tables.headD default).references = [] ∧
    ((add_table w9 5 q9 t9).tables.headD default).columns = [some (-1)] := by
  decide

/-- C9 (amended): for a Cascade signature column (operator And or Optional)
whose component carries data (a registered non-zero size), plan compilation
always takes the reference branch, even when the table has no `CHILDOF`
parent holding the component (entity resolved to 0): a reference entry with
entity 0 and a null cached pointer is appended and the slot becomes the
negative 1-based index of that entry.  For a component without data no
reference is appended (see the counterexample). -/
theorem add_table_cascade_reference (w : QWorld) (fuel : Nat) (q : Query)
    (tt : List Nat) (st : AddState) (col : SigColumn)
    (hfrm : col.frm = EcsCascade)
    (hop : col.op = EcsOperAnd ∨ col.op = EcsOperOptional)
    (hroot : ecs_components_contains_component w tt col.component = 0)
    (sz : Nat) (hsz : List.lookup col.component w.compSize = some sz)
    (hsz0 : sz ≠ 0) :
    (add_table_column w fuel q tt st col).references =
      st.references ++
        [{ entity := 0, component := col.component, cached_ptr := none }] ∧
    (add_table_column w fuel q tt st col).columns =
      st.columns ++ [some (-(st.references.length + 1 : Int))] ∧
    (add_table_column w fuel q tt st col).components =
      st.components ++ [col.component] := by
  have hres : add_table_resolve w fuel q tt col = (0, col.component) := by
    rcases hop with hop | hop <;>
      simp [add_table_resolve, hfrm, hop, hroot]
  unfold add_table_column
  rw [hres]
  simp only [hfrm]
  simp only [or_true, if_true]
  rw [hsz]
  simp [hsz0, ECS_INVALID_ENTITY]

/-- Witness for the amended C9: Cascade on component 77 of size 4 against a
table with no parents. -/
def w9w : QWorld :=
  { rows := [], compSize := [(77, 4)], prefabOf := [], eDisabled := 1,
    ePrefab := 2 }

theorem add_table_cascade_reference_witness :
    (c9Col.frm = EcsCascade ∧
     (c9Col.op = EcsOperAnd ∨ c9Col.op = EcsOperOptional) ∧
     ecs_components_contains_component w9w [] c9Col.component = 0 ∧
     List.lookup c9Col.component w9w.compSize = some 4 ∧ (4 : Nat) ≠ 0) ∧
    ((add_table_column w9w 5 q9 [] AddState.empty c9Col).references =
      AddState.empty.references ++
        [{ entity := 0, component := c9Col.component, cached_ptr := none }] ∧
     (add_table_column w9w 5 q9 [] AddState.empty c9Col).columns =
      AddState.empty.columns ++
        [some (-(AddState.empty.references.length + 1 : Int))] ∧
     (add_table_column w9w 5 q9 [] AddState.empty c9Col).components =
      AddState.empty.components ++ [c9Col.component]) :=
  ⟨⟨by decide, Or.inl (by decide), by decide, by decide, by decide⟩,
   add_table_cascade_reference w9w 5 q9 [] AddState.empty c9Col
     (by decide) (Or.inl (by decide)) (by decide) 4 (by decide) (by decide)⟩

/-! ## C4: the plan-slot encoding. -/

theorem getD_append_left {α : Type} (l l2 : List α) (k : Nat) (d : α)
    (h : k < l.length) : (l ++ l2).getD k d = l.getD k d := by
  rw [List.getD_eq_getElem _ _ (by simp; omega), List.getD_eq_getElem _ _ h,
    List.getElem_append_left]

theorem getD_concat_self {α : Type} (l : List α) (a d : α) :
    (l ++ [a]).getD l.length d = a := by
  rw [List.getD_eq_getElem _ _ (by simp)]
  simp

theorem typeIndexOfGo_bounds : ∀ (t : List Nat) (c : Nat) (i : Nat),
    typeIndexOfGo t c i = -1 ∨
      ((i : Int) ≤ typeIndexOfGo t c i ∧ typeIndexOfGo t c i < (i : Int) + t.length)
  | [], _, _ => Or.inl rfl
  | x :: rest, c, i => by
    unfold typeIndexOfGo
    by_cases hx : x = c
    · rw [if_pos hx]
      right
      constructor
      · omega
      · simp only [List.length_cons]
        push_cast
        omega
    · rw [if_neg hx]
      rcases typeIndexOfGo_bounds rest c (i + 1) with h | h
      · exact Or.inl h
      · right
        simp only [List.length_cons]
        push_cast at h ⊢
        omega

theorem ecs_type_index_of_bounds (t : List Nat) (c : Nat) :
    ecs_type_index_of t c = -1 ∨
      (0 ≤ ecs_type_index_of t c ∧ ecs_type_index_of t c < (t.length : Int)) := by
  have h := typeIndexOfGo_bounds t c 0
  simpa [ecs_type_index_of] using h

theorem typeIndexOfGo_eq_neg_one : ∀ (t : List Nat) (c i : Nat),
    typeIndexOfGo t c i = -1 ↔ c ∉ t
  | [], c, i => by simp [typeIndexOfGo]
  | x :: rest, c, i => by
    unfold typeIndexOfGo
    by_cases hx : x = c
    · rw [if_pos hx]
      constructor
      · intro h
        exfalso
        omega
      · intro h
        exfalso
        exact h (by simp [← hx])
    · rw [if_neg hx, typeIndexOfGo_eq_neg_one rest c (i + 1)]
      simp only [List.mem_cons]
      constructor
      · intro h hmem
        rcases hmem with hmem | hmem
        · exact hx hmem.symm
        · exact h hmem
      · intro h hmem
        exact h (Or.inr hmem)

theorem ecs_type_index_of_eq_neg_one (t : List Nat) (c : Nat) :
    ecs_type_index_of t c = -1 ↔ c ∉ t :=
  typeIndexOfGo_eq_neg_one t c 0

/-- The C4 plan-slot encoding: a slot is a tag (0), a 1-based table column
index, or a negative 1-based reference index. -/
def ValidSlot (v : Int) (colCount refCount : Nat) : Prop :=
  v = 0 ∨ (1 ≤ v ∧ v ≤ (colCount : Int)) ∨
    (-(refCount : Int) ≤ v ∧ v ≤ -1)

instance (v : Int) (colCount refCount : Nat) :
    Decidable (ValidSlot v colCount refCount) := by
  unfold ValidSlot
  infer_instance

theorem ValidSlot.mono {v : Int} {cc r1 r2 : Nat} (h : r1 ≤ r2) :
    ValidSlot v cc r1 → ValidSlot v cc r2 := by
  intro hv
  rcases hv with hv | hv | hv
  · exact Or.inl hv
  · exact Or.inr (Or.inl hv)
  · refine Or.inr (Or.inr ⟨?_, hv.2⟩)
    have : -(r2 : Int) ≤ -(r1 : Int) := by omega
    omega

/-- The side condition under which the claimed slot encoding is provable:
the column is a pure handle (`EcsFromEmpty`), or its resolved component is
non-zero and either carries data (a registered non-zero `EcsComponent`
size) or is resolved locally (entity 0) and owned by the table's type.
Columns outside this condition (tag components reached through prefabs,
containers, entities or systems) leave the slot `-1` or unassigned — see
the counterexample. -/
def GoodColumn (w : QWorld) (fuel : Nat) (q : Query) (tt : List Nat)
    (col : SigColumn) : Prop :=
  col.frm = EcsFromEmpty ∨
  ((add_table_resolve w fuel q tt col).2 ≠ 0 ∧
   ((List.lookup (add_table_resolve w fuel q tt col).2 w.compSize).getD 0 ≠ 0 ∨
    ((add_table_resolve w fuel q tt col).1 = 0 ∧
     (add_table_resolve w fuel q tt col).2 ∈ tt)))

instance (w : QWorld) (fuel : Nat) (q : Query) (tt : List Nat)
    (col : SigColumn) : Decidable (GoodColumn w fuel q tt col) := by
  unfold GoodColumn
  infer_instance

/-- Every possible value of the pre-reference plan slot. -/
theorem add_table_slot_mem (w : QWorld) (fuel : Nat) (tt : List Nat)
    (col : SigColumn) (entity component : Nat) :
    add_table_slot w fuel tt col entity component = none ∨
    add_table_slot w fuel tt col entity component = some 0 ∨
    add_table_slot w fuel tt col entity component = some (-1) ∨
    ∃ v : Int, add_table_slot w fuel tt col entity component = some v ∧
      1 ≤ v ∧ v ≤ (tt.length : Int) := by
  simp only [add_table_slot]
  by_cases hopt : col.op = EcsOperOptional ∧
      ¬(ecs_type_has_entity_intern w fuel tt component true) = true
  · rw [if_pos hopt]
    right; left; rfl
  · rw [if_neg hopt]
    by_cases hcond : entity = 0 ∧ col.frm ≠ EcsFromEmpty ∧ component ≠ 0
    · rw [if_pos hcond]
      by_cases hi : ecs_type_index_of tt component ≠ -1
      · rw [if_pos hi]
        rcases hlk : List.lookup component w.compSize with _ | sz
        · simp only [hlk]
          right; left; trivial
        · simp only [hlk]
          by_cases hsz : sz = 0
          · rw [if_pos hsz]
            right; left; rfl
          · rw [if_neg hsz]
            rcases ecs_type_index_of_bounds tt component with hb | hb
            · exact absurd hb hi
            · right; right; right
              exact ⟨ecs_type_index_of tt component + 1, rfl, by omega, by omega⟩
      · rw [if_neg hi]
        right; right; left; rfl
    · rw [if_neg hcond]
      by_cases hem : col.frm = EcsFromEmpty
      · rw [if_pos hem]
        right; left; rfl
      · rw [if_neg hem]
        left; rfl

/-- A slot is assigned whenever the column is a handle column or resolves
locally to a non-zero component. -/
theorem add_table_slot_isSome (w : QWorld) (fuel : Nat) (tt : List Nat)
    (col : SigColumn) (entity component : Nat)
    (h : col.frm = EcsFromEmpty ∨ (entity = 0 ∧ component ≠ 0)) :
    ∃ v, add_table_slot w fuel tt col entity component = some v := by
  simp only [add_table_slot]
  by_cases hopt : col.op = EcsOperOptional ∧
      ¬(ecs_type_has_entity_intern w fuel tt component true) = true
  · rw [if_pos hopt]
    exact ⟨0, rfl⟩
  · rw [if_neg hopt]
    by_cases hcond : entity = 0 ∧ col.frm ≠ EcsFromEmpty ∧ component ≠ 0
    · rw [if_pos hcond]
      by_cases hi : ecs_type_index_of tt component ≠ -1
      · rw [if_pos hi]
        rcases hlk : List.lookup component w.compSize with _ | sz
        · simp only [hlk]
          exact ⟨0, rfl⟩
        · simp only [hlk]
          by_cases hsz : sz = 0
          · rw [if_pos hsz]
            exact ⟨0, rfl⟩
          · rw [if_neg hsz]
            exact ⟨_, rfl⟩
      · rw [if_neg hi]
        exact ⟨-1, rfl⟩
    · rw [if_neg hcond]
      by_cases hem : col.frm = EcsFromEmpty
      · rw [if_pos hem]
        exact ⟨0, rfl⟩
      · rw [if_neg hem]
        exfalso
        rcases h with h | h
        · exact hem h
        · exact hcond ⟨h.1, hem, h.2⟩

/-- A component owned by the table never leaves the slot at `-1`. -/
theorem add_table_slot_ne_neg_one (w : QWorld) (fuel : Nat) (tt : List Nat)
    (col : SigColumn) (entity component : Nat) (hmem : component ∈ tt) :
    add_table_slot w fuel tt col entity component ≠ some (-1) := by
  have hi : ecs_type_index_of tt component ≠ -1 := by
    intro h
    exact (ecs_type_index_of_eq_neg_one tt component).mp h hmem
  have hb : 0 ≤ ecs_type_index_of tt component := by
    rcases ecs_type_index_of_bounds tt component with hb | hb
    · exact absurd hb hi
    · exact hb.1
  simp only [add_table_slot]
  by_cases hopt : col.op = EcsOperOptional ∧
      ¬(ecs_type_has_entity_intern w fuel tt component true) = true
  · rw [if_pos hopt]
    intro h
    simp at h
  · rw [if_neg hopt]
    by_cases hcond : entity = 0 ∧ col.frm ≠ EcsFromEmpty ∧ component ≠ 0
    · rw [if_pos hcond, if_pos hi]
      rcases hlk : List.lookup component w.compSize with _ | sz
      · simp only [hlk]
        intro h
        simp at h
      · simp only [hlk]
        by_cases hsz : sz = 0
        · rw [if_pos hsz]
          intro h
          simp at h
        · rw [if_neg hsz]
          intro h
          simp only [Option.some.injEq] at h
          omega
    · rw [if_neg hcond]
      by_cases hem : col.frm = EcsFromEmpty
      · rw [if_pos hem]
        intro h
        simp at h
      · rw [if_neg hem]
        intro h
        simp at h

/-- A handle column (`EcsFromEmpty`) always gets slot 0. -/
theorem add_table_slot_empty (w : QWorld) (fuel : Nat) (tt : List Nat)
    (col : SigColumn) (entity component : Nat)
    (hem : col.frm = EcsFromEmpty) :
    add_table_slot w fuel tt col entity component = some 0 := by
  simp only [add_table_slot]
  by_cases hopt : col.op = EcsOperOptional ∧
      ¬(ecs_type_has_entity_intern w fuel tt component true) = true
  · rw [if_pos hopt]
  · rw [if_neg hopt]
    rw [if_neg (fun hc => hc.2.1 hem), if_pos hem]

/-- An assigned slot other than `-1` is a valid encoding. -/
theorem add_table_slot_valid_of (w : QWorld) (fuel : Nat) (tt : List Nat)
    (col : SigColumn) (entity component : Nat) (r : Nat)
    (hsome : ∃ v, add_table_slot w fuel tt col entity component = some v)
    (hne1 : add_table_slot w fuel tt col entity component ≠ some (-1)) :
    ∃ v, add_table_slot w fuel tt col entity component = some v ∧
      ValidSlot v tt.length r := by
  rcases add_table_slot_mem w fuel tt col entity component with h | h | h | ⟨v, hv, h1, h2⟩
  · rcases hsome with ⟨v, hv⟩
    rw [h] at hv
    cases hv
  · exact ⟨0, h, Or.inl rfl⟩
  · exact absurd h hne1
  · exact ⟨v, hv, Or.inr (Or.inl ⟨h1, h2⟩)⟩

/-- One loop iteration of `add_table` appends exactly one assigned plan slot
with a valid encoding, and never removes references. -/
theorem add_table_column_slot_valid (w : QWorld) (fuel : Nat) (q : Query)
    (tt : List Nat) (st : AddState) (col : SigColumn)
    (hg : GoodColumn w fuel q tt col) :
    ∃ v : Int,
      (add_table_column w fuel q tt st col).columns = st.columns ++ [some v] ∧
      st.references.length ≤ (add_table_column w fuel q tt st col).references.length ∧
      ValidSlot v tt.length (add_table_column w fuel q tt st col).references.length := by
  have hres0 : col.frm = EcsFromEmpty → (add_table_resolve w fuel q tt col).1 = 0 := by
    intro hem
    simp [add_table_resolve, hem]
  simp only [add_table_column]
  by_cases hrc : (add_table_resolve w fuel q tt col).1 ≠ 0 ∨
      add_table_slot w fuel tt col (add_table_resolve w fuel q tt col).1
        (add_table_resolve w fuel q tt col).2 = some (-1) ∨
      col.frm = EcsCascade
  · rw [if_pos hrc]
    rcases hlk : List.lookup (add_table_resolve w fuel q tt col).2 w.compSize
      with _ | sz
    · simp only [hlk]
      have hd0 : (List.lookup (add_table_resolve w fuel q tt col).2 w.compSize).getD 0 = 0 := by
        rw [hlk]
        rfl
      rcases hg with hem | ⟨hcne, hor⟩
      · exfalso
        rcases hrc with h | h | h
        · exact h (hres0 hem)
        · rw [add_table_slot_empty w fuel tt col _ _ hem] at h
          simp at h
        · rw [hem] at h
          cases h
      · rcases hor with hgd | ⟨hent, hmem⟩
        · exact absurd hd0 hgd
        · rcases add_table_slot_valid_of w fuel tt col _ _ st.references.length
            (add_table_slot_isSome w fuel tt col _ _ (Or.inr ⟨hent, hcne⟩))
            (add_table_slot_ne_neg_one w fuel tt col _ _ hmem) with ⟨v, hv, hval⟩
          exact ⟨v, by simp only [hv], le_refl _, hval⟩
    · simp only [hlk]
      by_cases hsz : sz ≠ 0
      · rw [if_pos hsz]
        refine ⟨-(st.references.length + 1 : Int), rfl, by simp, ?_⟩
        right
        right
        constructor
        · simp only [List.length_append, List.length_cons, List.length_nil]
          push_cast
          omega
        · omega
      · rw [if_neg hsz]
        have hd0 : (List.lookup (add_table_resolve w fuel q tt col).2 w.compSize).getD 0 = 0 := by
          rw [hlk]
          simpa using hsz
        rcases hg with hem | ⟨hcne, hor⟩
        · exfalso
          rcases hrc with h | h | h
          · exact h (hres0 hem)
          · rw [add_table_slot_empty w fuel tt col _ _ hem] at h
            simp at h
          · rw [hem] at h
            cases h
        · rcases hor with hgd | ⟨hent, hmem⟩
          · exact absurd hd0 hgd
          · rcases add_table_slot_valid_of w fuel tt col _ _ st.references.length
              (add_table_slot_isSome w fuel tt col _ _ (Or.inr ⟨hent, hcne⟩))
              (add_table_slot_ne_neg_one w fuel tt col _ _ hmem) with ⟨v, hv, hval⟩
            exact ⟨v, by simp only [hv], le_refl _, hval⟩
  · rw [if_neg hrc]
    push_neg at hrc
    obtain ⟨hent, hne1, hcas⟩ := hrc
    rcases hg with hem | ⟨hcne, _⟩
    · rw [add_table_slot_empty w fuel tt col _ _ hem]
      exact ⟨0, rfl, le_refl _, Or.inl rfl⟩
    · rcases add_table_slot_valid_of w fuel tt col _ _ st.references.length
        (add_table_slot_isSome w fuel tt col _ _ (Or.inr ⟨hent, hcne⟩))
        hne1 with ⟨v, hv, hval⟩
      exact ⟨v, by simp only [hv], le_refl _, hval⟩

/-- With no goodness assumption at all, every loop iteration of `add_table`
appends exactly one plan slot and never removes references. -/
theorem add_table_column_shape (w : QWorld) (fuel : Nat) (q : Query)
    (tt : List Nat) (st : AddState) (col : SigColumn) :
    ∃ s : Option Int,
      (add_table_column w fuel q tt st col).columns = st.columns ++ [s] ∧
      st.references.length ≤ (add_table_column w fuel q tt st col).references.length := by
  simp only [add_table_column]
  by_cases hrc : (add_table_resolve w fuel q tt col).1 ≠ 0 ∨
      add_table_slot w fuel tt col (add_table_resolve w fuel q tt col).1
        (add_table_resolve w fuel q tt col).2 = some (-1) ∨
      col.frm = EcsCascade
  · rw [if_pos hrc]
    rcases hlk : List.lookup (add_table_resolve w fuel q tt col).2 w.compSize
      with _ | sz
    · simp only [hlk]
      exact ⟨_, rfl, le_refl _⟩
    · simp only [hlk]
      by_cases hsz : sz ≠ 0
      · rw [if_pos hsz]
        exact ⟨_, rfl, by simp⟩
      · rw [if_neg hsz]
        exact ⟨_, rfl, le_refl _⟩
  · rw [if_neg hrc]
    exact ⟨_, rfl, le_refl _⟩

/-- Bookkeeping over the whole loop: one slot per signature column,
monotone references, and already-written slots never change. -/
theorem add_table_fold_shape (w : QWorld) (fuel : Nat) (q : Query)
    (tt : List Nat) :
    ∀ (cols : List SigColumn) (st : AddState),
      (List.foldl (add_table_column w fuel q tt) st cols).columns.length
        = st.columns.length + cols.length ∧
      st.references.length ≤
        (List.foldl (add_table_column w fuel q tt) st cols).references.length ∧
      ∀ k, k < st.columns.length →
        (List.foldl (add_table_column w fuel q tt) st cols).columns.getD k none
          = st.columns.getD k none
  | [], st => ⟨by simp, le_refl _, fun _ _ => rfl⟩
  | c :: rest, st => by
    obtain ⟨s, hs, hr⟩ := add_table_column_shape w fuel q tt st c
    obtain ⟨hlen, hrefs, hpres⟩ :=
      add_table_fold_shape w fuel q tt rest (add_table_column w fuel q tt st c)
    simp only [List.foldl_cons]
    refine ⟨?_, le_trans hr hrefs, ?_⟩
    · rw [hlen, hs]
      simp only [List.length_append, List.length_cons, List.length_nil]
      omega
    · intro k hk
      rw [hpres k (by rw [hs]; simp only [List.length_append]; simp; omega)]
      rw [hs, getD_append_left _ _ _ _ hk]

/-- The per-position loop invariant of `add_table`: the slot written for any
single good column is assigned and validly encoded against the final
reference count, no matter what the other columns are. -/
theorem add_table_fold_valid_at (w : QWorld) (fuel : Nat) (q : Query)
    (tt : List Nat) :
    ∀ (cols : List SigColumn) (st : AddState) (k : Nat),
      st.columns.length ≤ k →
      k < (List.foldl (add_table_column w fuel q tt) st cols).columns.length →
      GoodColumn w fuel q tt (cols.getD (k - st.columns.length) default) →
      ∃ v, (List.foldl (add_table_column w fuel q tt) st cols).columns.getD k none
            = some v ∧
        ValidSlot v tt.length
          (List.foldl (add_table_column w fuel q tt) st cols).references.length
  | [], st, k, hge, hlt, _ => by
    simp only [List.foldl_nil] at hlt
    omega
  | c :: rest, st, k, hge, hlt, hgood => by
    simp only [List.foldl_cons] at hlt ⊢
    by_cases hke : k = st.columns.length
    · have hg0 : GoodColumn w fuel q tt c := by
        have hz : k - st.columns.length = 0 := by omega
        rw [hz] at hgood
        simpa using hgood
      obtain ⟨v, hcols, _, hval⟩ := add_table_column_slot_valid w fuel q tt st c hg0
      obtain ⟨_, hfrefs, hfpres⟩ :=
        add_table_fold_shape w fuel q tt rest (add_table_column w fuel q tt st c)
      refine ⟨v, ?_, ValidSlot.mono hfrefs hval⟩
      rw [hfpres k (by rw [hcols]; simp; omega)]
      rw [hcols, hke, getD_concat_self]
    · obtain ⟨s, hs, _⟩ := add_table_column_shape w fuel q tt st c
      refine add_table_fold_valid_at w fuel q tt rest _ k ?_ hlt ?_
      · rw [hs]
        simp
        omega
      · have h1 : k - (add_table_column w fuel q tt st c).columns.length
            = (k - st.columns.length) - 1 := by
          rw [hs]
          simp
          omega
        rw [h1]
        have h2 : (c :: rest).getD (k - st.columns.length) default
            = rest.getD ((k - st.columns.length) - 1) default := by
          have hsplit : k - st.columns.length = ((k - st.columns.length) - 1) + 1 := by
            omega
          rw [hsplit, List.getD_cons_succ]
          congr 1
        rw [← h2]
        exact hgood

/-- C4 (amended, per column): for every matched table record and every
signature column position `k`, provided that column is a pure handle or
resolves to a component that either carries data or is owned by the table
(`GoodColumn`), the plan slot at `k` is assigned and is exactly one of: 0
(tag / no data), a positive 1-based table-column index bounded by the
table's column count, or a negative 1-based reference index bounded by the
record's reference count — regardless of what the other columns of the
signature are.  Without that proviso a slot can be left at `-1` with no
references (see the counterexample). -/
theorem add_table_slots_encoded (w : QWorld) (fuel : Nat) (q : Query)
    (t : QTable) (k : Nat)
    (hk : k < q.sig_columns.length)
    (hgood : GoodColumn w fuel q t.typ (q.sig_columns.getD k default)) :
    ∃ rec, (add_table w fuel q t).tables = q.tables ++ [rec] ∧ rec.table = t ∧
      rec.columns.length = q.sig_columns.length ∧
      ∃ v, rec.columns.getD k none = some v ∧
        ValidSlot v t.typ.length rec.references.length := by
  obtain ⟨hflen, _, _⟩ :=
    add_table_fold_shape w fuel q t.typ q.sig_columns AddState.empty
  refine ⟨_, rfl, rfl, by simpa [AddState.empty] using hflen, ?_⟩
  refine add_table_fold_valid_at w fuel q t.typ q.sig_columns AddState.empty k
    (by simp [AddState.empty]) ?_ ?_
  · rw [hflen]
    simpa [AddState.empty] using hk
  · simpa [AddState.empty] using hgood

/-- World, query and table for the C4 counterexample: component 77 is a pure
tag (no `EcsComponent` record) owned only by the prefab 99 of the (empty)
table type, so the And-Self column matches via the prefab but the plan slot
stays at the failed index lookup's -1 with an empty reference list. -/
def w4 : QWorld :=
  { rows := [(99, some [77])], compSize := [], prefabOf := [([], 99)],
    eDisabled := 1, ePrefab := 2 }

def q4 : Query :=
  postprocess (mkQuery
    [{ frm := EcsFromSelf, op := EcsOperAnd, component := 77, typ := [], source := 0 }]
    false false 0)

def t4 : QTable := { id := 1, typ := [] }

/-- Counterexample to C4 as stated: the table matches, but the single plan
slot holds -1 while the record has zero references — `-1` is not a valid
negative reference index, and it is neither 0 nor a positive column index. -/
theorem add_table_slot_encoding_counterexample :
    match_table w4 6 t4 q4 = true ∧
    ((add_table w4 6 q4 t4).tables.headD default).columns.getD 0 none = some (-1) ∧
    ((add_table w4 6 q4 t4).tables.headD default).references.length = 0 ∧
    ¬ ValidSlot (-1) t4.typ.length
        ((add_table w4 6 q4 t4).tables.headD default).references.length := by
  decide

/-- Witness for the amended C4: an And-Self column on component 40 with size
4, owned by the table. -/
def w4w : QWorld :=
  { rows := [], compSize := [(40, 4)], prefabOf := [], eDisabled := 1,
    ePrefab := 2 }

def q4w : Query :=
  postprocess (mkQuery
    [{ frm := EcsFromSelf, op := EcsOperAnd, component := 40, typ := [], source := 0 }]
    false false 0)

def t4w : QTable := { id := 2, typ := [40] }

theorem add_table_slots_encoded_witness :
    (0 < q4w.sig_columns.length ∧
     GoodColumn w4w 6 q4w t4w.typ (q4w.sig_columns.getD 0 default)) ∧
    (∃ rec, (add_table w4w 6 q4w t4w).tables = q4w.tables ++ [rec] ∧
      rec.table = t4w ∧
      rec.columns.length = q4w.sig_columns.length ∧
      ∃ v, rec.columns.getD 0 none = some v ∧
        ValidSlot v t4w.typ.length rec.references.length) :=
  ⟨⟨by decide, by decide⟩,
   add_table_slots_encoded w4w 6 q4w t4w 0 (by decide) (by decide)⟩

/-! ## C10: Or + Container resolution order. -/

/-- When every `CHILDOF` parent in the table's type matches the Or type,
`components_contains` resolves against the parent of the first `CHILDOF`
entry, in the type's stored (ascending id) order. -/
theorem components_contains_first (w : QWorld) (fuel : Nat) :
    ∀ (tt typ : List Nat) (e0 : Nat),
      tt.find? isChildOfEntry = some e0 →
      (∀ e ∈ tt, isChildOfEntry e = true →
        ∃ pt, List.lookup (maskEntity e) w.rows = some (some pt) ∧
          ecs_type_contains w fuel pt typ false true ≠ 0) →
      ∃ pt0, List.lookup (maskEntity e0) w.rows = some (some pt0) ∧
        components_contains w fuel tt typ false =
          (ecs_type_contains w fuel pt0 typ false true, maskEntity e0)
  | [], _, e0, hfind, _ => by simp at hfind
  | e :: rest, typ, e0, hfind, hall => by
    by_cases hflag : isChildOfEntry e = true
    · rw [List.find?_cons_of_pos _ hflag] at hfind
      have he0 : e = e0 := by
        cases hfind
        rfl
      obtain ⟨pt, hlk, hne⟩ := hall e (by simp) hflag
      refine ⟨pt, by rw [← he0]; exact hlk, ?_⟩
      simp only [components_contains]
      rw [if_pos hflag]
      simp only [hlk]
      rw [if_pos hne, ← he0]
    · rw [List.find?_cons_of_neg _ (by simpa using hflag)] at hfind
      have ih := components_contains_first w fuel rest typ e0 hfind
        (fun e2 he2 hf2 => hall e2 (by simp [he2]) hf2)
      rcases ih with ⟨pt0, hlk0, heq⟩
      refine ⟨pt0, hlk0, ?_⟩
      simp only [components_contains]
      rw [if_neg (by simpa using hflag)]
      exact heq

/-- C10 (amended): for an Or signature column with Container source, matched
against a table whose `CHILDOF` parents all match the declared Or type, the
alternative and the parent candidate are resolved from the parent of the
earliest `CHILDOF` entry in the table's type (types are stored ascending by
raw id), and the recorded component is the first member of the Or type
present in that parent's type; the choice is a pure function of the inputs,
hence deterministic.  The recorded reference designates that parent itself
provided the parent owns the resolved alternative (and the alternative
carries data); when the first matching parent merely inherits the
alternative through its prefab chain, `ecs_get_entity_for_component` makes
the reference designate the prefab holder instead — see the
counterexample. -/
theorem add_table_or_container_first_parent (w : QWorld) (fuel : Nat)
    (q : Query) (tt : List Nat) (st : AddState) (col : SigColumn)
    (hfrm : col.frm = EcsFromContainer) (hop : col.op = EcsOperOr)
    (e0 : Nat) (hfind : tt.find? isChildOfEntry = some e0)
    (hall : ∀ e ∈ tt, isChildOfEntry e = true →
      ∃ pt, List.lookup (maskEntity e) w.rows = some (some pt) ∧
        ecs_type_contains w fuel pt col.typ false true ≠ 0)
    (pt0 : List Nat)
    (hpt0 : List.lookup (maskEntity e0) w.rows = some (some pt0))
    (howned : ecs_type_contains w fuel pt0 col.typ false true ∈ pt0)
    (hp0 : maskEntity e0 ≠ 0)
    (sz : Nat)
    (hsz : List.lookup (ecs_type_contains w fuel pt0 col.typ false true)
      w.compSize = some sz)
    (hsz0 : sz ≠ 0) :
    (add_table_column w fuel q tt st col).references =
      st.references ++
        [{ entity := maskEntity e0,
           component := ecs_type_contains w fuel pt0 col.typ false true,
           cached_ptr := ecs_get_ptr w fuel (maskEntity e0)
             (ecs_type_contains w fuel pt0 col.typ false true) }] ∧
    (add_table_column w fuel q tt st col).components =
      st.components ++ [ecs_type_contains w fuel pt0 col.typ false true] ∧
    (add_table_column w fuel q tt st col).columns =
      st.columns ++ [some (-(st.references.length + 1 : Int))] := by
  obtain ⟨pt0', hlk', hcc⟩ := components_contains_first w fuel tt col.typ e0 hfind hall
  have hpt : pt0' = pt0 := by
    rw [hpt0] at hlk'
    cases hlk'
    rfl
  rw [hpt] at hcc
  have hres : add_table_resolve w fuel q tt col =
      (maskEntity e0, ecs_type_contains w fuel pt0 col.typ false true) := by
    simp [add_table_resolve, hfrm, hop, hcc]
  have hty : typeOfEntity w (maskEntity e0) = pt0 := by
    simp [typeOfEntity, hpt0]
  have hgec : ecs_get_entity_for_component w fuel (maskEntity e0) tt
      (ecs_type_contains w fuel pt0 col.typ false true) = maskEntity e0 := by
    simp only [ecs_get_entity_for_component]
    rw [if_pos hp0, hty, if_pos howned]
  simp only [add_table_column]
  simp only [hres]
  rw [if_pos (Or.inl hp0)]
  rw [hsz]
  simp [hsz0, hfrm, hgec, hp0, ECS_INVALID_ENTITY]

/-- Concrete data for the C10 witness: two `CHILDOF` entries with parents 5
(owning component 40) and 6 (owning component 41); the Or type is
`[40, 41]` and 40 has size 4. -/
def w10 : QWorld :=
  { rows := [(5, some [40]), (6, some [41])], compSize := [(40, 4)],
    prefabOf := [], eDisabled := 1, ePrefab := 2 }

def col10 : SigColumn :=
  { frm := EcsFromContainer, op := EcsOperOr, component := 0, typ := [40, 41],
    source := 0 }

def q10 : Query := mkQuery [col10] false false 0

def tt10 : List Nat := [2 ^ 63 + 5, 2 ^ 63 + 6]

theorem add_table_or_container_first_parent_witness :
    (col10.frm = EcsFromContainer ∧ col10.op = EcsOperOr ∧
     tt10.find? isChildOfEntry = some (2 ^ 63 + 5) ∧
     (∀ e ∈ tt10, isChildOfEntry e = true →
       ∃ pt, List.lookup (maskEntity e) w10.rows = some (some pt) ∧
         ecs_type_contains w10 6 pt col10.typ false true ≠ 0) ∧
     List.lookup (maskEntity (2 ^ 63 + 5)) w10.rows = some (some [40]) ∧
     ecs_type_contains w10 6 [40] col10.typ false true ∈ [40] ∧
     maskEntity (2 ^ 63 + 5) ≠ 0 ∧
     List.lookup (ecs_type_contains w10 6 [40] col10.typ false true)
       w10.compSize = some 4 ∧ (4 : Nat) ≠ 0) ∧
    ((add_table_column w10 6 q10 tt10 AddState.empty col10).references =
      AddState.empty.references ++
        [{ entity := maskEntity (2 ^ 63 + 5),
           component := ecs_type_contains w10 6 [40] col10.typ false true,
           cached_ptr := ecs_get_ptr w10 6 (maskEntity (2 ^ 63 + 5))
             (ecs_type_contains w10 6 [40] col10.typ false true) }] ∧
     (add_table_column w10 6 q10 tt10 AddState.empty col10).components =
      AddState.empty.components ++
        [ecs_type_contains w10 6 [40] col10.typ false true] ∧
     (add_table_column w10 6 q10 tt10 AddState.empty col10).columns =
      AddState.empty.columns ++
        [some (-(AddState.empty.references.length + 1 : Int))]) :=
  ⟨⟨by decide, by decide, by decide,
    (by
      intro e he hf
      simp only [tt10, List.mem_cons, List.not_mem_nil, or_false] at he
      rcases he with he | he
      · subst he
        exact ⟨[40], by decide, by decide⟩
      · subst he
        exact ⟨[41], by decide, by decide⟩),
    by decide, by decide, by decide, by decide, by decide⟩,
   add_table_or_container_first_parent w10 6 q10 tt10 AddState.empty col10
     (by decide) (by decide) (2 ^ 63 + 5) (by decide)
     (by
       intro e he hf
       simp only [tt10, List.mem_cons, List.not_mem_nil, or_false] at he
       rcases he with he | he
       · subst he
         exact ⟨[40], by decide, by decide⟩
       · subst he
         exact ⟨[41], by decide, by decide⟩)
     [40] (by decide) (by decide) (by decide) 4 (by decide) (by decide)⟩

/-! ## C7: type evaluation and prefab registration (src/table.c lines
92-144).

`ecs_table_eval_columns` walks the type backwards (descending position;
descending id once the type is sorted).  The world metadata it consults —
`ecs_has(world, c, EcsComponent / EcsPrefab / EcsPrefabParent)`,
`ecs_get_ptr(world, c, EcsPrefabParent)`, `world->last_handle` and the id of
the `EcsPrefab` entity — is modelled as explicit sets; the fatal
`ecs_assert`s become `Except` errors.  `registered` records the
`ecs_map_set64(world->prefab_index, table->type_id, c)` calls in order. -/

structure TWorld where
  last_handle : Nat
  components : List Nat
  prefabTags : List Nat
  prefabParents : List (Nat × Nat)
  eprefab : Nat
  deriving Repr, DecidableEq

inductive EvalErr where
  | invalidHandle | moreThanOnePrefab | internalError
  deriving Repr, DecidableEq

structure EvalState where
  isPrefab : Bool
  hasPrefab : Bool
  prefab_set : Bool
  exclude_prefab : Nat
  registered : List Nat
  deriving Repr, DecidableEq

def evalGo (w : TWorld) : List Nat → EvalState → Except EvalErr EvalState
  | [], st => .ok st
  | c :: rest, st =>
    if c > w.last_handle then .error .invalidHandle
    else
      let st1 := if c = w.eprefab then { st with isPrefab := true } else st
      if c ∉ w.components then
        if c ≠ st.exclude_prefab ∧ c ∈ w.prefabTags then
          if st.prefab_set then .error .moreThanOnePrefab
          else
            evalGo w rest
              { st1 with
                prefab_set := true
                registered := st1.registered ++ [c]
                hasPrefab := true }
        else
          match List.lookup c w.prefabParents with
          | some p =>
            if p = 0 then .error .internalError
            else evalGo w rest { st1 with exclude_prefab := p }
          | none => evalGo w rest st1
      else evalGo w rest st1

def evalInit : EvalState :=
  { isPrefab := false, hasPrefab := false, prefab_set := false,
    exclude_prefab := 0, registered := [] }

/-- `ecs_table_eval_columns`, walking the type in descending order. -/
def ecs_table_eval_columns (w : TWorld) (typ : List Nat) :
    Except EvalErr EvalState :=
  evalGo w typ.reverse evalInit

/-- The claim's registration condition for an id `c` of the type: not a
component, has the `Prefab` tag, and not excluded by a `PrefabParent` flag
seen earlier in the descending walk (a flag with a higher id). -/
def PrefabEligible (w : TWorld) (typ : List Nat) (c : Nat) : Prop :=
  c ∈ typ ∧ c ∉ w.components ∧ c ∈ w.prefabTags ∧
  ¬∃ f ∈ typ, c < f ∧ List.lookup f w.prefabParents = some c

instance (w : TWorld) (typ : List Nat) (c : Nat) :
    Decidable (PrefabEligible w typ c) := by
  unfold PrefabEligible
  infer_instance

/-- Bookkeeping facts about a successful walk: registrations are only
appended, at most one is added when `prefab_set` starts false, and none is
added when it starts true. -/
theorem evalGo_ok_spec (w : TWorld) :
    ∀ (r : List Nat) (st st' : EvalState), evalGo w r st = .ok st' →
      (∃ l, st'.registered = st.registered ++ l) ∧
      st'.registered.length ≤
        st.registered.length + (if st.prefab_set then 0 else 1) ∧
      (st.prefab_set = true → st'.registered = st.registered)
  | [], st, st', h => by
    simp only [evalGo] at h
    cases h
    exact ⟨⟨[], by simp⟩, by split <;> omega, fun _ => rfl⟩
  | c :: rest, st, st', h => by
    simp only [evalGo] at h
    have hst1reg : (if c = w.eprefab then { st with isPrefab := true } else st).registered
        = st.registered := by split <;> rfl
    have hst1ps : (if c = w.eprefab then { st with isPrefab := true } else st).prefab_set
        = st.prefab_set := by split <;> rfl
    by_cases h1 : c > w.last_handle
    · rw [if_pos h1] at h
      simp at h
    · rw [if_neg h1] at h
      by_cases h2 : c ∉ w.components
      · rw [if_pos h2] at h
        by_cases h3 : c ≠ st.exclude_prefab ∧ c ∈ w.prefabTags
        · rw [if_pos h3] at h
          by_cases h4 : st.prefab_set = true
          · rw [if_pos h4] at h
            simp at h
          · rw [if_neg h4] at h
            obtain ⟨⟨l, hl⟩, hlen, _⟩ := evalGo_ok_spec w rest _ st' h
            simp only [hst1reg] at hl hlen
            refine ⟨⟨[c] ++ l, by rw [hl]; simp⟩, ?_, fun hps => absurd hps h4⟩
            simp only [Bool.not_eq_true] at h4
            rw [h4]
            simp only [if_true, if_neg (Bool.false_ne_true)] at hlen ⊢
            simp only [List.length_append, List.length_singleton] at hlen
            omega
        · rw [if_neg h3] at h
          rcases hlk : List.lookup c w.prefabParents with _ | p
          · simp only [hlk] at h
            obtain ⟨⟨l, hl⟩, hlen, hps⟩ := evalGo_ok_spec w rest _ st' h
            simp only [hst1reg] at hl hlen hps
            simp only [hst1ps] at hlen hps
            exact ⟨⟨l, hl⟩, hlen, hps⟩
          · simp only [hlk] at h
            by_cases hp : p = 0
            · rw [if_pos hp] at h
              simp at h
            · rw [if_neg hp] at h
              obtain ⟨⟨l, hl⟩, hlen, hps⟩ := evalGo_ok_spec w rest _ st' h
              simp only [hst1reg] at hl hlen hps
              simp only [hst1ps] at hlen hps
              exact ⟨⟨l, hl⟩, hlen, hps⟩
      · rw [if_neg h2] at h
        obtain ⟨⟨l, hl⟩, hlen, hps⟩ := evalGo_ok_spec w rest _ st' h
        simp only [hst1reg] at hl hlen hps
        simp only [hst1ps] at hlen hps
        exact ⟨⟨l, hl⟩, hlen, hps⟩

theorem lookup_mem : ∀ (l : List (Nat × Nat)) (c p : Nat),
    List.lookup c l = some p → (c, p) ∈ l
  | [], c, p, h => by simp [List.lookup] at h
  | (k, v) :: rest, c, p, h => by
    by_cases hk : k = c
    · subst hk
      simp [List.lookup] at h
      simp [h]
    · have hk2 : (c == k) = false := by
        simp
        exact fun hh => hk hh.symm
      simp [List.lookup, hk2] at h
      exact List.mem_cons_of_mem _ (lookup_mem rest c p h)

/-- Every id of the walk that satisfies the claim's registration condition
(not a component, `Prefab`-tagged, not excluded by a higher-id
`PrefabParent` flag) ends up registered when the walk succeeds. -/
theorem evalGo_eligible (w : TWorld) (typ : List Nat) :
    ∀ (r : List Nat) (st st' : EvalState),
      r.Pairwise (· > ·) →
      (∀ c ∈ r, c ∈ typ) →
      (∀ c ∈ r, PrefabEligible w typ c → st.exclude_prefab ≠ c) →
      evalGo w r st = .ok st' →
      ∀ c ∈ r, PrefabEligible w typ c → c ∈ st'.registered
  | [], _, _, _, _, _, _, c, hc, _ => by simp at hc
  | c0 :: rest, st, st', hpw, hsub, hexcl, h, c, hc, hel => by
    simp only [evalGo] at h
    have hst1reg : (if c0 = w.eprefab then { st with isPrefab := true } else st).registered
        = st.registered := by split <;> rfl
    have hst1ex : (if c0 = w.eprefab then { st with isPrefab := true } else st).exclude_prefab
        = st.exclude_prefab := by split <;> rfl
    have hpwrest := (List.pairwise_cons.mp hpw).2
    have hgtrest := (List.pairwise_cons.mp hpw).1
    have hsubrest : ∀ c2 ∈ rest, c2 ∈ typ :=
      fun c2 hc2 => hsub c2 (List.mem_cons_of_mem _ hc2)
    by_cases h1 : c0 > w.last_handle
    · rw [if_pos h1] at h
      simp at h
    · rw [if_neg h1] at h
      by_cases h2 : c0 ∉ w.components
      · rw [if_pos h2] at h
        by_cases h3 : c0 ≠ st.exclude_prefab ∧ c0 ∈ w.prefabTags
        · rw [if_pos h3] at h
          by_cases h4 : st.prefab_set = true
          · rw [if_pos h4] at h
            simp at h
          · rw [if_neg h4] at h
            rcases List.mem_cons.mp hc with hceq | hcrest
            · subst hceq
              obtain ⟨⟨l, hl⟩, _, _⟩ := evalGo_ok_spec w rest _ st' h
              rw [hl]
              simp only [hst1reg]
              simp
            · refine evalGo_eligible w typ rest _ st' hpwrest hsubrest ?_ h c hcrest hel
              intro c2 hc2 hel2
              simp only [hst1ex]
              exact hexcl c2 (List.mem_cons_of_mem _ hc2) hel2
        · rw [if_neg h3] at h
          have hc0case : c ∈ rest ∨ (c = c0 ∧ False) := by
            rcases List.mem_cons.mp hc with hceq | hcrest
            · subst hceq
              right
              refine ⟨rfl, ?_⟩
              have htags := hel.2.2.1
              have hcex : c = st.exclude_prefab := by
                by_contra hne
                exact h3 ⟨hne, htags⟩
              exact hexcl c (by simp) hel hcex.symm
            · exact Or.inl hcrest
          rcases hc0case with hcrest | ⟨_, hfalse⟩
          · rcases hlk : List.lookup c0 w.prefabParents with _ | p
            · simp only [hlk] at h
              refine evalGo_eligible w typ rest _ st' hpwrest hsubrest ?_ h c hcrest hel
              intro c2 hc2 hel2
              simp only [hst1ex]
              exact hexcl c2 (List.mem_cons_of_mem _ hc2) hel2
            · simp only [hlk] at h
              by_cases hp : p = 0
              · rw [if_pos hp] at h
                simp at h
              · rw [if_neg hp] at h
                refine evalGo_eligible w typ rest _ st' hpwrest hsubrest ?_ h c hcrest hel
                intro c2 hc2 hel2
                show p ≠ c2
                intro hpc
                subst hpc
                exact hel2.2.2.2
                  ⟨c0, hsub c0 (by simp), hgtrest p hc2, hlk⟩
          · exact absurd trivial (fun _ => hfalse)
      · rw [if_neg h2] at h
        rcases List.mem_cons.mp hc with hceq | hcrest
        · subst hceq
          exact absurd hel.2.1 (by simpa using h2)
        · refine evalGo_eligible w typ rest _ st' hpwrest hsubrest ?_ h c hcrest hel
          intro c2 hc2 hel2
          simp only [hst1ex]
          exact hexcl c2 (List.mem_cons_of_mem _ hc2) hel2

/-- Under in-range handles and well-formed `PrefabParent` data, the walk
either succeeds or dies with `MORE_THAN_ONE_PREFAB`. -/
theorem evalGo_ok_or_mtop (w : TWorld) :
    ∀ (r : List Nat) (st : EvalState),
      (∀ c ∈ r, ¬ c > w.last_handle) →
      (∀ pr ∈ w.prefabParents, pr.2 ≠ 0) →
      (∃ st', evalGo w r st = .ok st') ∨
        evalGo w r st = .error .moreThanOnePrefab
  | [], st, _, _ => Or.inl ⟨st, rfl⟩
  | c :: rest, st, hh, hpp => by
    have hhrest : ∀ c2 ∈ rest, ¬ c2 > w.last_handle :=
      fun c2 hc2 => hh c2 (List.mem_cons_of_mem _ hc2)
    simp only [evalGo]
    rw [if_neg (hh c (by simp))]
    by_cases h2 : c ∉ w.components
    · rw [if_pos h2]
      by_cases h3 : c ≠ st.exclude_prefab ∧ c ∈ w.prefabTags
      · rw [if_pos h3]
        by_cases h4 : st.prefab_set = true
        · rw [if_pos h4]
          exact Or.inr rfl
        · rw [if_neg h4]
          exact evalGo_ok_or_mtop w rest _ hhrest hpp
      · rw [if_neg h3]
        rcases hlk : List.lookup c w.prefabParents with _ | p
        · simp only [hlk]
          exact evalGo_ok_or_mtop w rest _ hhrest hpp
        · simp only [hlk]
          rw [if_neg (hpp (c, p) (lookup_mem _ _ _ hlk))]
          exact evalGo_ok_or_mtop w rest _ hhrest hpp
    · rw [if_neg h2]
      exact evalGo_ok_or_mtop w rest _ hhrest hpp

/-- C7: `ecs_table_eval_columns` walks the (ascending-sorted) type in
descending id order; on success it registers in the prefab index exactly the
ids that are not components, carry the `Prefab` tag and are not excluded by
a higher-id `PrefabParent` flag — and at most one registration happens.  A
type containing two distinct such non-excluded prefab ancestors makes the
walk die with the `MORE_THAN_ONE_PREFAB` assertion. -/
theorem ecs_table_eval_columns_prefab (w : TWorld) (typ : List Nat)
    (hsorted : typ.Pairwise (· < ·))
    (hpos : ∀ c ∈ typ, 0 < c)
    (hhandle : ∀ c ∈ typ, c ≤ w.last_handle)
    (hpp : ∀ pr ∈ w.prefabParents, pr.2 ≠ 0) :
    (∀ st, ecs_table_eval_columns w typ = .ok st →
      st.registered.length ≤ 1 ∧
      ∀ c ∈ typ, PrefabEligible w typ c → c ∈ st.registered) ∧
    (∀ c1 c2, c1 ≠ c2 → PrefabEligible w typ c1 → PrefabEligible w typ c2 →
      ecs_table_eval_columns w typ = .error .moreThanOnePrefab) := by
  have hpwrev : typ.reverse.Pairwise (· > ·) := by
    rw [List.pairwise_reverse]
    exact hsorted
  have hsubrev : ∀ c ∈ typ.reverse, c ∈ typ := fun c hc => List.mem_reverse.mp hc
  have part1 : ∀ st, ecs_table_eval_columns w typ = .ok st →
      st.registered.length ≤ 1 ∧
      ∀ c ∈ typ, PrefabEligible w typ c → c ∈ st.registered := by
    intro st hok
    constructor
    · obtain ⟨_, hlen, _⟩ := evalGo_ok_spec w typ.reverse evalInit st hok
      simpa [evalInit] using hlen
    · intro c hc hel
      refine evalGo_eligible w typ typ.reverse evalInit st hpwrev hsubrev ?_
        hok c (List.mem_reverse.mpr hc) hel
      intro c2 hc2 hel2
      have := hpos c2 (hsubrev c2 hc2)
      simp only [evalInit]
      omega
  refine ⟨part1, ?_⟩
  intro c1 c2 hne hel1 hel2
  rcases evalGo_ok_or_mtop w typ.reverse evalInit
      (fun c hc => by
        have := hhandle c (hsubrev c hc)
        omega)
      hpp with ⟨st, hok⟩ | herr
  · exfalso
    obtain ⟨hlen, hreg⟩ := part1 st hok
    have h1 := hreg c1 hel1.1 hel1
    have h2 := hreg c2 hel2.1 hel2
    rcases hlreg : st.registered with _ | ⟨x, xs⟩
    · rw [hlreg] at h1
      simp at h1
    · rcases xs with _ | ⟨y, ys⟩
      · rw [hlreg] at h1 h2
        simp at h1 h2
        exact hne (h1.trans h2.symm)
      · rw [hlreg] at hlen
        simp at hlen
  · exact herr

/-- Witness world for C7: in type `[7, 10]`, id 7 is a `Prefab`-tagged
non-component (eligible, gets registered) and id 10 is a component. -/
def w7 : TWorld :=
  { last_handle := 100, components := [10], prefabTags := [7],
    prefabParents := [(9, 3)], eprefab := 4 }

theorem ecs_table_eval_columns_prefab_witness :
    (([7, 10] : List Nat).Pairwise (· < ·) ∧
     (∀ c ∈ ([7, 10] : List Nat), 0 < c) ∧
     (∀ c ∈ ([7, 10] : List Nat), c ≤ w7.last_handle) ∧
     (∀ pr ∈ w7.prefabParents, pr.2 ≠ 0)) ∧
    ((∀ st, ecs_table_eval_columns w7 [7, 10] = .ok st →
      st.registered.length ≤ 1 ∧
      ∀ c ∈ ([7, 10] : List Nat), PrefabEligible w7 [7, 10] c → c ∈ st.registered) ∧
     (∀ c1 c2, c1 ≠ c2 → PrefabEligible w7 [7, 10] c1 → PrefabEligible w7 [7, 10] c2 →
      ecs_table_eval_columns w7 [7, 10] = .error .moreThanOnePrefab)) :=
  ⟨⟨by decide, by decide, by decide, by decide⟩,
   ecs_table_eval_columns_prefab w7 [7, 10] (by decide) (by decide)
     (by decide) (by decide)⟩

/-- World and table type for the C10 counterexample: the earliest `CHILDOF`
parent (entity 5, type `[60]`) only inherits alternative 40 from its prefab
99, while parent 6 owns alternative 41. -/
def w10c : QWorld :=
  { rows := [(5, some [60]), (6, some [41]), (99, some [40])],
    compSize := [(40, 4)], prefabOf := [([60], 99)],
    eDisabled := 1, ePrefab := 2 }

def tt10c : List Nat := [2 ^ 63 + 5, 2 ^ 63 + 6]

/-- Counterexample to C10 as stated: both `CHILDOF` parents' tables contain
an alternative of the Or type (containment through prefabs, as
`components_contains` checks it), the earliest `CHILDOF` entry's parent is
entity 5 — yet the recorded reference designates 99, the prefab of parent 5
that actually holds the resolved alternative, not the parent itself. -/
theorem add_table_or_container_prefab_counterexample :
    ((∀ e ∈ tt10c, isChildOfEntry e = true) ∧
     ecs_type_contains w10c 6 [60] col10.typ false true ≠ 0 ∧
     ecs_type_contains w10c 6 [41] col10.typ false true ≠ 0 ∧
     tt10c.headD 0 = 2 ^ 63 + 5 ∧ maskEntity (2 ^ 63 + 5) = 5) ∧
    ((add_table_column w10c 6 q10 tt10c AddState.empty col10).references.headD
        ⟨0, 0, none⟩).entity = 99 ∧
    (99 : Nat) ≠ 5 := by
  decide

end Flecs
